import Mathlib

set_option maxHeartbeats 1000000

/-!
Verification development for the WordPress-to-BMLT importer
(`src/importer/sync_wp_to_bmlt_v4.py`).

The Python source is shallow-embedded below.  Machine strings are modelled
as Lean `String` (ASCII semantics for case folding / whitespace, which covers
every pattern the program matches on); Python `dict`s holding JSON data are
modelled as association lists with unique keys; the floating-point
latitude/longitude values are carried opaquely as scaled integers since the
program performs no arithmetic on them, only storage and serialization.
External collaborators (the geocoder and the registry publish endpoint) are
modelled as per-record outcome oracles, and every network call / rate-limit
sleep is recorded in an event trace.
-/

/-! ## Python string primitives -/

/-- ASCII model of Python's `str.strip` whitespace class (`\s`). -/
def pyIsSpace (c : Char) : Bool :=
  c == ' ' || c == '\t' || c == '\n' || c == '\r' || c == '\x0b' || c == '\x0c'

/-- Strip whitespace from both ends of a character list (`str.strip()`). -/
def pyStripL (l : List Char) : List Char :=
  ((l.dropWhile pyIsSpace).reverse.dropWhile pyIsSpace).reverse

/-- Python `str.strip()`. -/
def pyStrip (s : String) : String :=
  String.mk (pyStripL s.toList)

/-- Python `str.lower()` (ASCII). -/
def pyLower (s : String) : String :=
  String.mk (s.toList.map Char.toLower)

/-- Does `pat` occur as a prefix of `l`? -/
def hasPrefixL : List Char → List Char → Bool
  | [], _ => true
  | _ :: _, [] => false
  | p :: ps, c :: cs => p == c && hasPrefixL ps cs

/-- Does `pat` occur as a contiguous substring of `l`?  Python's `in`. -/
def hasSubstrL (pat : List Char) : List Char → Bool
  | [] => pat.isEmpty
  | c :: cs => hasPrefixL pat (c :: cs) || hasSubstrL pat cs

/-- Python's `pat in s` substring test. -/
def strContains (s pat : String) : Bool :=
  hasSubstrL pat.toList s.toList

/-- Fuel-driven replacement scan: at each position, if the (non-empty)
pattern matches, emit the replacement and continue past the match, else
keep one character.  The fuel bounds the number of steps; each step
consumes at least one character, so fuel equal to the input length is
always enough. -/
def replaceFuel (pat rep : List Char) : Nat → List Char → List Char
  | 0, l => l
  | fuel + 1, l =>
    match l with
    | [] => []
    | c :: rest =>
      if pat ≠ [] ∧ hasPrefixL pat (c :: rest) = true then
        rep ++ replaceFuel pat rep fuel (List.drop pat.length (c :: rest))
      else
        c :: replaceFuel pat rep fuel rest

/-- Python `s.replace(pat, rep)` for the non-empty patterns the source
uses (a structural model of `String.replace`, which itself is defined by
well-founded recursion and does not reduce in the kernel). -/
def strReplace (s pat rep : String) : String :=
  if pat = "" then s
  else String.mk (replaceFuel pat.toList rep.toList s.toList.length s.toList)

/-- Python `s.startswith(pre)`. -/
def strStartsWith (s pre : String) : Bool :=
  hasPrefixL pre.toList s.toList

/-- Python `s.split(sep)` for a single-character separator, on char lists.
`"".split(":") = [""]` is honoured: the empty list maps to `[[]]`. -/
def splitOnChar (sep : Char) : List Char → List (List Char)
  | [] => [[]]
  | c :: rest =>
    let r := splitOnChar sep rest
    if c == sep then [] :: r
    else
      match r with
      | [] => [[c]]
      | h :: t => (c :: h) :: t

/-- Python `s.replace(".", ":")` (single-char pattern, hence a char map). -/
def dotToColon (s : String) : String :=
  String.mk (s.toList.map (fun c => if c == '.' then ':' else c))

/-- Value of a list of decimal digit characters. -/
def digitsToNat (l : List Char) : Nat :=
  l.foldl (fun a c => a * 10 + (c.toNat - '0'.toNat)) 0

/-- Python `s.isdigit()` (ASCII digits): nonempty and all digits. -/
def pyIsDigitStr (s : String) : Bool :=
  !s.toList.isEmpty && s.toList.all Char.isDigit

/-- Python `int(s)` as a partial function: strips whitespace, allows an
optional sign followed by one or more ASCII digits; `none` models a raised
`ValueError`. -/
def pyIntOpt (s : String) : Option Int :=
  match pyStripL s.toList with
  | [] => none
  | c :: rest =>
    if c = '+' then
      if rest ≠ [] ∧ rest.all Char.isDigit then some (Int.ofNat (digitsToNat rest)) else none
    else if c = '-' then
      if rest ≠ [] ∧ rest.all Char.isDigit then some (-(Int.ofNat (digitsToNat rest))) else none
    else if (c :: rest).all Char.isDigit then some (Int.ofNat (digitsToNat (c :: rest)))
    else none

/-- Python `f"{n:02d}"`: pad a nonnegative single digit with a leading zero;
wider or negative values print as-is (total width already at least 2). -/
def fmt02 (n : Int) : String :=
  if 0 ≤ n ∧ n < 10 then "0" ++ toString n else toString n

/-! ## Association lists (model of Python `dict`) -/

/-- Python `d[k] = v`: replace the entry in place if the key exists, else
append (insertion order is preserved, as in a Python dict). -/
def ainsert {α : Type} (k : String) (v : α) : List (String × α) → List (String × α)
  | [] => [(k, v)]
  | (k', v') :: rest => if k' == k then (k, v) :: rest else (k', v') :: ainsert k v rest

/-- Python `d[k] = d.get(k, 0) + 1`. -/
def bump (m : List (String × Nat)) (k : String) : List (String × Nat) :=
  ainsert k ((List.lookup k m).getD 0 + 1) m

/-! ## `normalize_time`, `duration_hm` (source lines 175-203) -/

/-- Embeds `normalize_time`: empty stays empty; otherwise strip, substitute
`.` by `:`, and split on `:`; a lone all-digit part becomes `HH:00`; two or
more parts are parsed as hour and minute when both parse as Python ints;
any parse failure returns the substituted string unchanged. -/
def normalize_time (val : String) : String :=
  if val = "" then ""
  else
    let s := dotToColon (pyStrip val)
    let parts := (splitOnChar ':' s.toList).map String.mk
    if parts.length = 1 ∧ pyIsDigitStr (parts.headD "") = true then
      fmt02 (Int.ofNat (digitsToNat (parts.headD "").toList)) ++ ":00"
    else if 2 ≤ parts.length then
      match pyIntOpt (parts.headD ""), pyIntOpt ((parts.drop 1).headD "") with
      | some h, some m => fmt02 h ++ ":" ++ fmt02 m
      | _, _ => s
    else s

/-- Embeds `duration_hm`: parse the minutes string (default 90 on failure or
non-positive values) and render `HH:MM`. -/
def duration_hm (v : String) : String :=
  let mins0 : Int := match pyIntOpt v with | some n => n | none => 90
  let mins : Int := if mins0 ≤ 0 then 90 else mins0
  fmt02 (mins / 60) ++ ":" ++ fmt02 (mins % 60)

/-! ## `strip_html_like`, `truncate_comments` (source lines 206-234) -/

/-- Character scan of `strip_html_like`: drop everything between `<` and `>`
(the brackets included), tracking the `in_tag` flag. -/
def dropTags : List Char → Bool → List Char
  | [], _ => []
  | c :: rest, inTag =>
    if c == '<' then dropTags rest true
    else if c == '>' then dropTags rest false
    else if inTag then dropTags rest true
    else c :: dropTags rest false

/-- Embeds `strip_html_like`. -/
def strip_html_like (s : String) : String :=
  if s = "" then ""
  else
    let txt := strReplace (strReplace (strReplace s "<br />" "\n") "<br/>" "\n") "<br>" "\n"
    let cleaned := String.mk (dropTags txt.toList false)
    let cleaned2 := strReplace (strReplace cleaned "\r\n" "\n") "\r" "\n"
    let lines := (((splitOnChar '\n' cleaned2.toList).map String.mk).map pyStrip).filter
      (fun l => l ≠ "")
    pyStrip (String.intercalate "\n" lines)

/-- `COMMENTS_MAX` from the source. -/
def COMMENTS_MAX : Nat := 512

/-- Embeds `truncate_comments`: empty stays empty; at most `COMMENTS_MAX`
characters stay unchanged; else (since `COMMENTS_MAX > 3`) keep the first
`COMMENTS_MAX - 1` characters and append one ellipsis character. -/
def truncate_comments (s : String) : String :=
  if s = "" then ""
  else if s.length ≤ COMMENTS_MAX then s
  else if COMMENTS_MAX ≤ 3 then String.mk (s.toList.take COMMENTS_MAX)
  else String.mk (s.toList.take (COMMENTS_MAX - 1)) ++ "…"

/-! ## `split_tokens`, `is_virtual` (source lines 237-254) -/

/-- The WP relation fields arrive either as a string or as a list of
strings; `split_tokens` and the `str(...)` coercion accept both. -/
inductive TokVal where
  | str (v : String)
  | lst (v : List String)
deriving Repr, DecidableEq

/-- Python truthiness of an optional relation field. -/
def pyTruthyTok : Option TokVal → Bool
  | none => false
  | some (.str v) => v ≠ ""
  | some (.lst v) => !v.isEmpty

/-- Python `str(...)` of a relation field (`str` of a list renders the
elements singly quoted, comma separated, in brackets). -/
def pyStrTok : Option TokVal → String
  | none => "None"
  | some (.str v) => v
  | some (.lst v) =>
    "[" ++ String.intercalate ", " (v.map (fun x => "\x27" ++ x ++ "\x27")) ++ "]"

/-- Embeds `split_tokens`. -/
def split_tokens (v : Option TokVal) : List String :=
  if pyTruthyTok v = false then []
  else
    match v with
    | some (.lst xs) => (xs.filter (fun x => x ≠ "")).map pyStrip
    | some (.str s0) =>
      let s1 := strReplace (strReplace (strReplace (strReplace s0 "," ",") " ja " ",")
        " & " ",") ";" ","
      (((splitOnChar ',' s1.toList).map String.mk).map pyStrip).filter (fun x => x ≠ "")
    | none => []

/-- Raw WordPress source record (the fields the importer reads). -/
structure WPObj where
  id : Nat
  title_rendered : Option String := none
  slug : Option String := none
  weekday : Option String := none
  alkamisaika : Option String := none
  kesto : Option String := none
  katuosoite : Option String := none
  postinumero : Option String := none
  kaupunki : Option String := none
  maa : Option String := none
  karttalinkki : Option String := none
  lisatiedot : Option String := none
  rel_kokousmuodot : Option TokVal := none
  rel_kokouskielet : Option TokVal := none
deriving Repr, DecidableEq

/-- Embeds `is_virtual`: lowercase the street, city and map-link fields and
test `"internet" in city or "zoom" in street or "zoom" in link or
"teams" in link`. -/
def is_virtual (obj : WPObj) : Bool :=
  let street := pyLower (obj.katuosoite.getD "")
  let city := pyLower (obj.kaupunki.getD "")
  let link := pyLower (obj.karttalinkki.getD "")
  strContains city "internet" || strContains street "zoom" ||
    strContains link "zoom" || strContains link "teams"

/-! ## `extract_first_url`, `extract_phone_number` (source lines 257-277) -/

/-- Drop trailing characters belonging to `bad` (`str.rstrip(bad)`). -/
def rstripSet (cs : List Char) (bad : List Char) : List Char :=
  (cs.reverse.dropWhile (fun c => bad.contains c)).reverse

/-- Match of the regex `https?://\S+` anchored at the head of `l`. -/
def urlMatchAt (l : List Char) : Option (List Char) :=
  if hasPrefixL "https://".toList l then
    let tail := (l.drop 8).takeWhile (fun c => !pyIsSpace c)
    if tail.isEmpty then none else some ("https://".toList ++ tail)
  else if hasPrefixL "http://".toList l then
    let tail := (l.drop 7).takeWhile (fun c => !pyIsSpace c)
    if tail.isEmpty then none else some ("http://".toList ++ tail)
  else none

/-- Leftmost match of `https?://\S+` (the `re.search` scan). -/
def findUrlL : List Char → Option (List Char)
  | [] => none
  | c :: rest =>
    match urlMatchAt (c :: rest) with
    | some m => some m
    | none => findUrlL rest

/-- Embeds `extract_first_url`. -/
def extract_first_url (text : String) : String :=
  if text = "" then ""
  else
    match findUrlL text.toList with
    | none => ""
    | some m => String.mk (rstripSet m [')', '.', ',', ']'])

/-- ASCII model of the regex word class `\w`. -/
def isWordChar (c : Char) : Bool := c.isAlphanum || c == '_'

/-- Match of `\+\d{6,15}|\b0\d{6,15}\b` anchored at the head of `l`, with
`prev` the preceding character (for the word boundary).  For the second
alternative the greedy repetition with a trailing boundary succeeds exactly
when the full digit run after the `0` has length 6..15 and the following
character is not a word character. -/
def phoneCompactAt (prev : Option Char) (l : List Char) : Option (List Char) :=
  match l with
  | '+' :: rest =>
    let d := rest.takeWhile Char.isDigit
    if 6 ≤ d.length then some ('+' :: d.take 15) else none
  | '0' :: rest =>
    let bOk : Bool := match prev with | none => true | some c => !isWordChar c
    let d := rest.takeWhile Char.isDigit
    let aOk : Bool := match rest.drop d.length with | [] => true | c :: _ => !isWordChar c
    if bOk = true ∧ 6 ≤ d.length ∧ d.length ≤ 15 ∧ aOk = true then some ('0' :: d) else none
  | _ => none

/-- Leftmost-match scan for the compact phone pattern. -/
def findPhoneCompact : Option Char → List Char → Option (List Char)
  | _, [] => none
  | prev, c :: rest =>
    match phoneCompactAt prev (c :: rest) with
    | some m => some m
    | none => findPhoneCompact (some c) rest

/-- Character class `[\d\s\-]` of the loose phone pattern. -/
def isLooseCls (c : Char) : Bool := c.isDigit || pyIsSpace c || c == '-'

/-- Match of `\+\d[\d\s\-]{6,20}|\b0\d[\d\s\-]{6,20}` anchored at the head. -/
def phoneLooseAt (prev : Option Char) (l : List Char) : Option (List Char) :=
  match l with
  | '+' :: d :: rest =>
    if d.isDigit then
      let cls := rest.takeWhile isLooseCls
      if 6 ≤ cls.length then some ('+' :: d :: cls.take 20) else none
    else none
  | '0' :: d :: rest =>
    let bOk : Bool := match prev with | none => true | some c => !isWordChar c
    if bOk = true ∧ d.isDigit = true then
      let cls := rest.takeWhile isLooseCls
      if 6 ≤ cls.length then some ('0' :: d :: cls.take 20) else none
    else none
  | _ => none

/-- Leftmost-match scan for the loose phone pattern. -/
def findPhoneLoose : Option Char → List Char → Option (List Char)
  | _, [] => none
  | prev, c :: rest =>
    match phoneLooseAt prev (c :: rest) with
    | some m => some m
    | none => findPhoneLoose (some c) rest

/-- Embeds `extract_phone_number`: strip markup, first try the compact
pattern on the text with spaces and hyphens removed, then the loose pattern
on the stripped text with non-digit, non-plus characters erased. -/
def extract_phone_number (text : String) : String :=
  if text = "" then ""
  else
    let t := strip_html_like text
    let compact := String.mk (t.toList.filter (fun c => !(c == ' ') && !(c == '-')))
    match findPhoneCompact none compact.toList with
    | some m => String.mk m
    | none =>
      match findPhoneLoose none t.toList with
      | some m => String.mk (m.filter (fun c => c.isDigit || c == '+'))
      | none => ""

/-! ## `clean_geocode_query` (source lines 280-295) -/

/-- Iterative model of `re.sub(r"\([^)]*\)", "", s)`: on an unmatched `(`
buffer characters until the first `)`; a matched span is dropped, an
unterminated one is emitted verbatim at end of input. -/
def parenStripAux : List Char → Option (List Char) → List Char
  | [], none => []
  | [], some buf => '(' :: buf.reverse
  | c :: rest, none =>
    if c == '(' then parenStripAux rest (some [])
    else c :: parenStripAux rest none
  | c :: rest, some buf =>
    if c == ')' then parenStripAux rest none
    else parenStripAux rest (some (c :: buf))

/-- Collapse runs of whitespace into a single space (`re.sub(r"\s+", " ")`). -/
def collapseWsL : List Char → List Char
  | [] => []
  | [c] => if pyIsSpace c then [' '] else [c]
  | c :: d :: rest =>
    if pyIsSpace c ∧ pyIsSpace d then collapseWsL (d :: rest)
    else (if pyIsSpace c then ' ' else c) :: collapseWsL (d :: rest)

/-- The `_clean` helper inside `clean_geocode_query`. -/
def cleanComponent (s : String) : String :=
  if s = "" then ""
  else
    let s1 := pyStrip s
    let s2 := pyStrip (String.mk (parenStripAux s1.toList none))
    let s3 := String.mk (s2.toList.map (fun c => if c == '/' then ' ' else c))
    pyStrip (String.mk (collapseWsL s3.toList))

/-- Embeds `clean_geocode_query`: clean each component and join the
non-empty ones with `", "`. -/
def clean_geocode_query (street postal city country : String) : String :=
  String.intercalate ", "
    (([street, postal, city, country].map cleanComponent).filter (fun p => p ≠ ""))

/-! ## `payload_fingerprint` (source lines 314-319) -/

/-- JSON values occurring in the publish payload. -/
inductive JVal where
  | str (v : String)
  | num (v : Int)
  | boolean (v : Bool)
  | arr (v : List Int)
deriving Repr, DecidableEq

/-- Python `dict.pop(k, None)` on a unique-key association list. -/
def dict_pop (k : String) (d : List (String × JVal)) : List (String × JVal) :=
  d.filter (fun kv => kv.1 ≠ k)

/-- Lexicographic char-list comparison (Python string `<=`, by code point). -/
def charsLe : List Char → List Char → Bool
  | [], _ => true
  | _ :: _, [] => false
  | a :: as, b :: bs => if a == b then charsLe as bs else decide (a.toNat < b.toNat)

/-- Insertion into a key-sorted association list. -/
def insertSortedKV (kv : String × JVal) : List (String × JVal) → List (String × JVal)
  | [] => [kv]
  | h :: t => if charsLe kv.1.toList h.1.toList then kv :: h :: t else h :: insertSortedKV kv t

/-- `sort_keys=True`: sort the entries by key. -/
def sortKV (d : List (String × JVal)) : List (String × JVal) :=
  d.foldr insertSortedKV []

/-- Rendering of one JSON value (string escaping simplified: the claims
depend only on the serialization being a fixed function of the data). -/
def jvalStr : JVal → String
  | .str v => "\x22" ++ v ++ "\x22"
  | .num v => toString v
  | .boolean true => "true"
  | .boolean false => "false"
  | .arr vs => "[" ++ String.intercalate ", " (vs.map toString) ++ "]"

/-- `json.dumps(d, sort_keys=True)` model. -/
def jdump (d : List (String × JVal)) : String :=
  "\x7b" ++
    String.intercalate ", "
      ((sortKV d).map (fun kv => "\x22" ++ kv.1 ++ "\x22: " ++ jvalStr kv.2)) ++
  "\x7d"

/-- Stand-in for the SHA-256 hex digest: a fixed deterministic function of
the serialized blob.  Every claim about fingerprints depends only on the
digest being a function of its input, never on its cryptographic shape. -/
def strHash (s : String) : Nat :=
  s.foldl (fun a c => (a * 131 + c.toNat) % 1000000007) 7

/-- Embeds `payload_fingerprint`: drop the `latitude` and `longitude`
entries, serialize with sorted keys, hash. -/
def payload_fingerprint (payload : List (String × JVal)) : Nat :=
  strHash (jdump (dict_pop "longitude" (dict_pop "latitude" payload)))

/-! ## Constants and format resolution (source lines 71-100, 383-410) -/

/-- `VENUE_IN_PERSON` from the source. -/
def VENUE_IN_PERSON : Nat := 1

/-- `VENUE_VIRTUAL` from the source. -/
def VENUE_VIRTUAL : Nat := 2

/-- `VENUE_HYBRID` from the source. -/
def VENUE_HYBRID : Nat := 3

/-- `WEEKDAY_MAP` from the source. -/
def WEEKDAY_MAP : List (String × Nat) :=
  [("Sunnuntai", 0), ("Maanantai", 1), ("Tiistai", 2), ("Keskiviikko", 3),
   ("Torstai", 4), ("Perjantai", 5), ("Lauantai", 6)]

/-- `FORMAT_KEY_MAP` from the source. -/
def FORMAT_KEY_MAP : List (String × String) :=
  [("suomi", "FIN"), ("englanti", "ENG"), ("venäjä", "L/R"),
   ("Avoin", "O"), ("Suljettu", "C"), ("Meditaatio", "ME"),
   ("Puhujakokous", "So"), ("Askeltyökokous", "St"), ("Hybridi", "HY")]

/-- Run configuration taken from the process environment and the registry
formats endpoint (`format_key_to_id` / `allowed_format_ids` are the result
of `bmlt_get_formats`). -/
structure Config where
  service_body_id : Int := 1
  default_lat : Int := 601699
  default_lon : Int := 249384
  allow_fallback_coords : Bool := false
  default_province : String := "Uusimaa"
  format_key_to_id : List (String × Int) := []
  allowed_format_ids : List Int := []
deriving Repr, DecidableEq

/-- Embeds `build_format_ids`: tokenize the two relation fields, put the
virtual-meeting key first for virtual records, map tokens through
`FORMAT_KEY_MAP` deduplicating in first-seen order, then look each key up in
the registry index — a missing key (or, per the `if fid:` truthiness test in
the source, an id of 0) goes to `missing_keys`. -/
def build_format_ids (obj : WPObj) (format_key_to_id : List (String × Int)) :
    List Int × List String :=
  let tokens := split_tokens obj.rel_kokousmuodot ++ split_tokens obj.rel_kokouskielet
  let keys0 : List String := if is_virtual obj then ["VM"] else []
  let keys := tokens.foldl
    (fun acc t =>
      match List.lookup t FORMAT_KEY_MAP with
      | some key => if key ≠ "" ∧ ¬acc.contains key then acc ++ [key] else acc
      | none => acc) keys0
  keys.foldl
    (fun (acc : List Int × List String) k =>
      match List.lookup k format_key_to_id with
      | some fid => if fid ≠ 0 then (acc.1 ++ [fid], acc.2) else (acc.1, acc.2 ++ [k])
      | none => (acc.1, acc.2 ++ [k])) ([], [])

/-- The resolved id list after the valid-id post-filter (main loop
lines 498-501). -/
def formatIdsRaw (cfg : Config) (obj : WPObj) : List Int :=
  ((build_format_ids obj cfg.format_key_to_id).1).filter
    (fun fid => cfg.allowed_format_ids.contains fid)

/-- The id list after the `FIN` default-language fallback (main loop
lines 503-506). -/
def formatIdsOf (cfg : Config) (obj : WPObj) : List Int :=
  let ids := formatIdsRaw cfg obj
  if ids = [] then
    match List.lookup "FIN" cfg.format_key_to_id with
    | some fin => if cfg.allowed_format_ids.contains fin then [fin] else []
    | none => []
  else ids

/-- Does the `FIN` fallback apply (key present and id currently valid)? -/
def finFallback (cfg : Config) : Bool :=
  match List.lookup "FIN" cfg.format_key_to_id with
  | some fin => cfg.allowed_format_ids.contains fin
  | none => false

/-! ## Per-record field extraction (main loop lines 446-496) -/

/-- `title` with the rendered-title / slug / `WP-<id>` fallback chain. -/
def titleOf (obj : WPObj) : String :=
  let t := obj.title_rendered.getD ""
  if t ≠ "" then t
  else
    let sl := obj.slug.getD ""
    if sl ≠ "" then sl else "WP-" ++ toString obj.id

/-- `WEEKDAY_MAP.get((obj.get("weekday") or "").strip())`. -/
def dayOf (obj : WPObj) : Option Nat :=
  List.lookup (pyStrip (obj.weekday.getD "")) WEEKDAY_MAP

/-- `normalize_time(obj.get("alkamisaika") or "")`. -/
def startTimeOf (obj : WPObj) : String :=
  normalize_time (obj.alkamisaika.getD "")

/-- `duration_hm(obj.get("kesto") or "")`. -/
def durationOf (obj : WPObj) : String :=
  duration_hm (obj.kesto.getD "")

/-- `(obj.get("katuosoite") or "").strip()`. -/
def streetOf (obj : WPObj) : String := pyStrip (obj.katuosoite.getD "")

/-- `(obj.get("postinumero") or "").strip()`. -/
def postalOf (obj : WPObj) : String := pyStrip (obj.postinumero.getD "")

/-- `(obj.get("kaupunki") or "").strip()`. -/
def cityOf (obj : WPObj) : String := pyStrip (obj.kaupunki.getD "")

/-- `(obj.get("maa") or "").strip() or "Finland"`. -/
def countryOf (obj : WPObj) : String :=
  let c := pyStrip (obj.maa.getD "")
  if c = "" then "Finland" else c

/-- `(obj.get("karttalinkki") or "").strip()`. -/
def mapUrlOf (obj : WPObj) : String := pyStrip (obj.karttalinkki.getD "")

/-- `strip_html_like(obj.get("lisatiedot") or "")`. -/
def commentsRawOf (obj : WPObj) : String :=
  strip_html_like (obj.lisatiedot.getD "")

/-- `truncate_comments(comments_raw)`. -/
def commentsOf (obj : WPObj) : String :=
  truncate_comments (commentsRawOf obj)

/-- `virtual_link` as computed in the loop: empty unless the record is
virtual; then the map link when it is an absolute HTTP(S) URL, else the
first URL found in the stripped notes. -/
def virtualLinkOf (obj : WPObj) : String :=
  if is_virtual obj then
    let l := if strStartsWith (mapUrlOf obj) "http://" || strStartsWith (mapUrlOf obj) "https://"
             then mapUrlOf obj else ""
    if l = "" then extract_first_url (commentsRawOf obj) else l
  else ""

/-- `phone_number` as computed in the loop: empty unless virtual, else
extracted from the raw notes field. -/
def phoneOf (obj : WPObj) : String :=
  if is_virtual obj then extract_phone_number (obj.lisatiedot.getD "") else ""

/-- `venue_type` as computed in the loop (lines 491-496): virtual/in-person
per the classifier, then the `Hybridi` override — hybrid when a full address
is present, virtual otherwise. -/
def venueTypeOf (obj : WPObj) : Nat :=
  let base := if is_virtual obj then VENUE_VIRTUAL else VENUE_IN_PERSON
  if pyTruthyTok obj.rel_kokousmuodot = true ∧
     strContains (pyStrTok obj.rel_kokousmuodot) "Hybridi" = true then
    if streetOf obj ≠ "" ∧ (cityOf obj ≠ "" ∨ postalOf obj ≠ "") then VENUE_HYBRID
    else VENUE_VIRTUAL
  else base

/-- The cleaned geocode query for a record (line 518). -/
def qOf (obj : WPObj) : String :=
  clean_geocode_query (streetOf obj) (postalOf obj) (cityOf obj) (countryOf obj)

/-! ## The publish payload (main loop lines 542-571) -/

/-- The `NormalizedMeeting` publish payload assembled by the loop. -/
structure Payload where
  serviceBodyId : Int
  name : String
  day : Nat
  startTime : String
  duration : String
  published : Bool
  venueType : Nat
  latitude : Int
  longitude : Int
  formatIds : List Int
  locationStreet : String
  locationCity : String
  locationPostalCode : String
  locationCountry : String
  locationUrl : String
  location_street : String
  location_municipality : String
  location_postal_code : String
  location_country : String
  location_url : String
  locationProvince : String
  location_province : String
  virtualMeetingLink : String
  virtual_meeting_link : String
  phoneMeetingNumber : String
  phone_meeting_number : String
  comments : String
  externalId : String
deriving Repr, DecidableEq

/-- Assembly of the payload dict literal. -/
def mkPayload (cfg : Config) (obj : WPObj) (day : Nat) (lat lon : Int) : Payload :=
  { serviceBodyId := cfg.service_body_id
    name := strip_html_like (titleOf obj)
    day := day
    startTime := startTimeOf obj
    duration := durationOf obj
    published := true
    venueType := venueTypeOf obj
    latitude := lat
    longitude := lon
    formatIds := formatIdsOf cfg obj
    locationStreet := streetOf obj
    locationCity := cityOf obj
    locationPostalCode := postalOf obj
    locationCountry := countryOf obj
    locationUrl := mapUrlOf obj
    location_street := streetOf obj
    location_municipality := cityOf obj
    location_postal_code := postalOf obj
    location_country := countryOf obj
    location_url := mapUrlOf obj
    locationProvince := cfg.default_province
    location_province := cfg.default_province
    virtualMeetingLink := virtualLinkOf obj
    virtual_meeting_link := virtualLinkOf obj
    phoneMeetingNumber := phoneOf obj
    phone_meeting_number := phoneOf obj
    comments := commentsOf obj
    externalId := "wp:" ++ toString obj.id }

/-- The payload as the JSON dict handed to `payload_fingerprint` and the
publish endpoint, keys in source order. -/
def payloadDict (p : Payload) : List (String × JVal) :=
  [("serviceBodyId", .num p.serviceBodyId),
   ("name", .str p.name),
   ("day", .num (Int.ofNat p.day)),
   ("startTime", .str p.startTime),
   ("duration", .str p.duration),
   ("published", .boolean p.published),
   ("venueType", .num (Int.ofNat p.venueType)),
   ("latitude", .num p.latitude),
   ("longitude", .num p.longitude),
   ("formatIds", .arr p.formatIds),
   ("locationStreet", .str p.locationStreet),
   ("locationCity", .str p.locationCity),
   ("locationPostalCode", .str p.locationPostalCode),
   ("locationCountry", .str p.locationCountry),
   ("locationUrl", .str p.locationUrl),
   ("location_street", .str p.location_street),
   ("location_municipality", .str p.location_municipality),
   ("location_postal_code", .str p.location_postal_code),
   ("location_country", .str p.location_country),
   ("location_url", .str p.location_url),
   ("locationProvince", .str p.locationProvince),
   ("location_province", .str p.location_province),
   ("virtualMeetingLink", .str p.virtualMeetingLink),
   ("virtual_meeting_link", .str p.virtual_meeting_link),
   ("phoneMeetingNumber", .str p.phoneMeetingNumber),
   ("phone_meeting_number", .str p.phone_meeting_number),
   ("comments", .str p.comments),
   ("externalId", .str p.externalId)]

/-! ## Event traces and external outcomes -/

/-- Observable effects of a run: HTTP requests (method, host, path) and the
fixed rate-limit sleep (`time.sleep(1.1)`). -/
inductive Event where
  | http (method : String) (host : String) (path : String)
  | sleep
deriving Repr, DecidableEq

/-- The Nominatim search call issued by `geocode_address`. -/
def geoEv : Event := .http "GET" "nominatim.openstreetmap.org" "/search"

/-- The publish call issued by `bmlt_create_meeting`. -/
def meetingsEv : Event := .http "POST" "bmlt" "/api/v1/meetings"

/-- The login call issued by `bmlt_login_token`. -/
def authEv : Event := .http "POST" "bmlt" "/api/v1/auth/token"

/-- The format-list call issued by `bmlt_get_formats`. -/
def formatsEv : Event := .http "GET" "bmlt" "/api/v1/formats"

/-- One page fetch of `fetch_wp_all`. -/
def wpEv : Event := .http "GET" "wp" "/wp-json/wp/v2/kokoukset"

/-- Outcome of one live `geocode_address` call: a coordinate pair, an empty
result list, or a raised transport exception. -/
inductive GeoOutcome where
  | found (lat lon : Int)
  | notFound
  | raise
deriving Repr, DecidableEq

/-- Outcome of one `bmlt_create_meeting` call: success, an HTTP error with
its status code, or another raised exception. -/
inductive PubOutcome where
  | ok
  | httpError (code : Nat)
  | exc
deriving Repr, DecidableEq

/-- Oracle for the external collaborators consulted while processing one
record. -/
structure Oracle where
  geo : GeoOutcome := .notFound
  pub : PubOutcome := .ok
deriving Repr, DecidableEq

/-- Mutable run state: the geocode cache, the fingerprint store and the
per-run counters. -/
structure RunState where
  geocode_cache : List (String × (Int × Int)) := []
  fingerprints : List (String × Nat) := []
  created : Nat := 0
  skipped : Nat := 0
  failed : Nat := 0
  skipped_reasons : List (String × Nat) := []
  failed_reasons : List (String × Nat) := []
deriving Repr, DecidableEq

/-- Result of the coordinate-resolution block (lines 514-540). -/
inductive GeoRes where
  | proceed (lat lon : Int) (cache : List (String × (Int × Int))) (tr : List Event)
  | skip (reason : String) (cache : List (String × (Int × Int))) (tr : List Event)
deriving Repr, DecidableEq

/-- Embeds the coordinate-resolution block: geocoding happens only for
in-person/hybrid venues with a non-empty cleaned query; a cache hit avoids
the network; a live call sleeps afterwards unless it raised; failures skip
the record unless fallback coordinates are enabled. -/
def geoStage (cfg : Config) (cache : List (String × (Int × Int))) (ext : Oracle)
    (venue_type : Nat) (q : String) : GeoRes :=
  if venue_type = VENUE_IN_PERSON ∨ venue_type = VENUE_HYBRID then
    if q ≠ "" then
      match List.lookup q cache with
      | some c => .proceed c.1 c.2 cache []
      | none =>
        match ext.geo with
        | .found la lo => .proceed la lo (ainsert q (la, lo) cache) [geoEv, .sleep]
        | .notFound =>
          if cfg.allow_fallback_coords then
            .proceed cfg.default_lat cfg.default_lon cache [geoEv, .sleep]
          else .skip "geocode_failed" cache [geoEv, .sleep]
        | .raise =>
          if cfg.allow_fallback_coords then
            .proceed cfg.default_lat cfg.default_lon cache [geoEv]
          else .skip "geocode_error" cache [geoEv]
    else .proceed cfg.default_lat cfg.default_lon cache []
  else .proceed cfg.default_lat cfg.default_lon cache []

/-- Result classification of one loop iteration. -/
inductive Outcome where
  | skipped (reason : String)
  | published
  | failed (reason : String)
deriving Repr, DecidableEq

/-- Everything one loop iteration produces: the new run state, the events it
emitted, its outcome, and the payload if the iteration reached assembly. -/
structure StepOut where
  st : RunState
  trace : List Event
  outcome : Outcome
  assembled : Option Payload
deriving Repr, DecidableEq

/-- Bump the skip counters for reason `r`. -/
def skipSt (st : RunState) (r : String) : RunState :=
  { st with skipped := st.skipped + 1, skipped_reasons := bump st.skipped_reasons r }

/-- Embeds the body of the per-record loop of `main` (lines 446-600):
guards in source order, coordinate resolution, payload assembly,
fingerprint comparison, publish with per-record error handling. -/
def processRecord (cfg : Config) (st : RunState) (obj : WPObj) (ext : Oracle) : StepOut :=
  match dayOf obj with
  | none => ⟨skipSt st "missing_day_or_time", [], .skipped "missing_day_or_time", none⟩
  | some day =>
    if startTimeOf obj = "" then
      ⟨skipSt st "missing_day_or_time", [], .skipped "missing_day_or_time", none⟩
    else if is_virtual obj = true ∧ virtualLinkOf obj = "" ∧ phoneOf obj = "" then
      ⟨skipSt st "virtual_missing_link_or_phone", [],
        .skipped "virtual_missing_link_or_phone", none⟩
    else if is_virtual obj = false ∧
        (streetOf obj = "" ∨ (cityOf obj = "" ∧ postalOf obj = "")) then
      ⟨skipSt st "in_person_missing_address", [], .skipped "in_person_missing_address", none⟩
    else if formatIdsOf cfg obj = [] then
      ⟨skipSt st "no_valid_formats", [], .skipped "no_valid_formats", none⟩
    else
      match geoStage cfg st.geocode_cache ext (venueTypeOf obj) (qOf obj) with
      | .skip r cache tr =>
        ⟨{ skipSt st r with geocode_cache := cache }, tr, .skipped r, none⟩
      | .proceed lat lon cache tr =>
        if List.lookup (toString obj.id) st.fingerprints =
            some (payload_fingerprint (payloadDict (mkPayload cfg obj day lat lon))) then
          ⟨{ skipSt st "unchanged" with geocode_cache := cache }, tr,
            .skipped "unchanged", some (mkPayload cfg obj day lat lon)⟩
        else
          match ext.pub with
          | .ok =>
            ⟨{ st with
                geocode_cache := cache,
                created := st.created + 1,
                fingerprints := ainsert (toString obj.id)
                  (payload_fingerprint (payloadDict (mkPayload cfg obj day lat lon)))
                  st.fingerprints },
              tr ++ [meetingsEv], .published, some (mkPayload cfg obj day lat lon)⟩
          | .httpError code =>
            ⟨{ st with
                geocode_cache := cache,
                failed := st.failed + 1,
                failed_reasons := bump st.failed_reasons (toString code) },
              tr ++ [meetingsEv], .failed (toString code), some (mkPayload cfg obj day lat lon)⟩
          | .exc =>
            ⟨{ st with
                geocode_cache := cache,
                failed := st.failed + 1,
                failed_reasons := bump st.failed_reasons "exception" },
              tr ++ [meetingsEv], .failed "exception", some (mkPayload cfg obj day lat lon)⟩

/-- Result of a whole run over the fetched record list. -/
structure RunOut where
  st : RunState
  trace : List Event
  outcomes : List Outcome
deriving Repr, DecidableEq

/-- The per-record loop of `main`: strictly sequential, one record at a
time, each record's outcome appended regardless of what happened before. -/
def runAll (cfg : Config) (st : RunState) : List (WPObj × Oracle) → RunOut
  | [] => ⟨st, [], []⟩
  | (obj, ext) :: rest =>
    let r := processRecord cfg st obj ext
    let ros := runAll cfg r.st rest
    ⟨ros.st, r.trace ++ ros.trace, r.outcome :: ros.outcomes⟩

/-- The full event trace of `main`: the WP page fetches, the login, the
format-list fetch, then the loop's trace. -/
def mainTrace (cfg : Config) (st : RunState) (pages : Nat)
    (records : List (WPObj × Oracle)) : List Event :=
  List.replicate pages wpEv ++ [authEv, formatsEv] ++ (runAll cfg st records).trace

/-! ## Claim-side predicates -/

/-- The venue classifier exactly as claim C4 states it: "internet" in the
city, or "zoom" or "teams" in the street or in the map link,
case-insensitively. -/
def classify_claimed (obj : WPObj) : Bool :=
  strContains (pyLower (obj.kaupunki.getD "")) "internet" ||
  strContains (pyLower (obj.katuosoite.getD "")) "zoom" ||
  strContains (pyLower (obj.katuosoite.getD "")) "teams" ||
  strContains (pyLower (obj.karttalinkki.getD "")) "zoom" ||
  strContains (pyLower (obj.karttalinkki.getD "")) "teams"

/-- The amended classifier rule: "internet" in the city, "zoom" in the
street, or "zoom" or "teams" in the map link — `"teams"` is tested against
the map link only, never against the street. -/
def classify_amended (obj : WPObj) : Bool :=
  strContains (pyLower (obj.kaupunki.getD "")) "internet" ||
  strContains (pyLower (obj.katuosoite.getD "")) "zoom" ||
  strContains (pyLower (obj.karttalinkki.getD "")) "zoom" ||
  strContains (pyLower (obj.karttalinkki.getD "")) "teams"

/-- The invariant exactly as claim C1 states it: (exactly one of the
virtual link / virtual phone is non-empty, or the venue type is not
virtual), and an in-person or hybrid payload carries a non-empty street and
a non-empty city or postal code. -/
def c1_claimed (p : Payload) : Bool :=
  (((p.virtualMeetingLink != "") != (p.phoneMeetingNumber != "")) ||
    p.venueType != VENUE_VIRTUAL) &&
  (!(p.venueType == VENUE_IN_PERSON || p.venueType == VENUE_HYBRID) ||
    (p.locationStreet != "" && (p.locationCity != "" || p.locationPostalCode != "")))

/-! ## C8: truncate_comments -/

/-- Short inputs pass through `truncate_comments` unchanged. -/
theorem truncate_comments_of_le (s : String) (h : s.length ≤ COMMENTS_MAX) :
    truncate_comments s = s := by
  by_cases h0 : s = ""
  · simp [truncate_comments, h0]
  · simp [truncate_comments, h0, h]

/-- Long inputs are cut to 511 characters plus an ellipsis. -/
theorem truncate_comments_of_long (s : String) (h : COMMENTS_MAX < s.length) :
    truncate_comments s = String.mk (s.toList.take 511) ++ "…" := by
  have h0 : s ≠ "" := by
    intro e
    rw [e] at h
    simp [COMMENTS_MAX] at h
  have h1 : ¬ s.length ≤ COMMENTS_MAX := Nat.not_le.mpr h
  have h2 : ¬ COMMENTS_MAX ≤ 3 := by decide
  simp [truncate_comments, h0, h1, h2]
  rfl

/-- Length of a long input's truncation is exactly 512. -/
theorem truncate_comments_long_length (s : String) (h : COMMENTS_MAX < s.length) :
    (truncate_comments s).length = 512 := by
  rw [truncate_comments_of_long s h]
  have h5 : 512 < s.toList.length := by
    have hc : COMMENTS_MAX = 512 := rfl
    have hl : s.toList.length = s.length := rfl
    omega
  have ht : (String.mk (s.toList.take 511)).length = 511 := by
    show (s.toList.take 511).length = 511
    rw [List.length_take]
    omega
  rw [String.length_append, ht]
  rfl

/-- Claim C8: `truncate_comments` is idempotent and caps its output at 512
characters; inputs of length at most 512 pass through unchanged, and longer
inputs become their first 511 characters followed by a single ellipsis
character. -/
theorem c8_truncate_comments (s : String) :
    truncate_comments (truncate_comments s) = truncate_comments s ∧
    (truncate_comments s).length ≤ 512 ∧
    (s.length ≤ 512 → truncate_comments s = s) ∧
    (512 < s.length → truncate_comments s = String.mk (s.toList.take 511) ++ "…") := by
  by_cases h : s.length ≤ COMMENTS_MAX
  · have he := truncate_comments_of_le s h
    refine ⟨by rw [he, he], ?_, fun _ => he, fun hc => absurd h (Nat.not_le.mpr hc)⟩
    rw [he]
    exact h
  · have hlong : COMMENTS_MAX < s.length := Nat.lt_of_not_le h
    have hlen := truncate_comments_long_length s hlong
    refine ⟨?_, ?_, fun hc => absurd hc h, fun _ => truncate_comments_of_long s hlong⟩
    · exact truncate_comments_of_le _ (by rw [hlen]; decide)
    · rw [hlen]

/-- A 513-character string, used to exercise the truncation branch. -/
def bigComment : String := String.mk (List.replicate 513 'a')

/-- Witness for C8 at a concrete 513-character input. -/
theorem c8_truncate_comments_witness :
    512 < bigComment.length ∧
    truncate_comments (truncate_comments bigComment) = truncate_comments bigComment ∧
    truncate_comments bigComment = String.mk (bigComment.toList.take 511) ++ "…" := by
  have hlen : 512 < bigComment.length := by
    show 512 < (List.replicate 513 'a').length
    rw [List.length_replicate]
    omega
  exact ⟨hlen, (c8_truncate_comments bigComment).1,
    (c8_truncate_comments bigComment).2.2.2 hlen⟩

/-! ## C2: payload_fingerprint ignores coordinates -/

/-- Unfolding of `dict_pop` over a cons cell. -/
theorem dict_pop_cons (k : String) (a : String × JVal) (t : List (String × JVal)) :
    dict_pop k (a :: t) = if a.1 = k then dict_pop k t else a :: dict_pop k t := by
  unfold dict_pop
  rw [List.filter_cons]
  by_cases h : a.1 = k
  · simp [h]
  · simp [h]

/-- Two payload dicts with the same key sequence that agree on every entry
other than `latitude` and `longitude` coincide after both keys are
removed. -/
theorem dict_pop_latlon_eq : ∀ (d1 d2 : List (String × JVal)),
    d1.map Prod.fst = d2.map Prod.fst →
    (∀ pr ∈ d1.zip d2, pr.1.1 ≠ "latitude" → pr.1.1 ≠ "longitude" → pr.1.2 = pr.2.2) →
    dict_pop "longitude" (dict_pop "latitude" d1) =
      dict_pop "longitude" (dict_pop "latitude" d2)
  | [], [], _, _ => rfl
  | [], b :: t2, hk, _ => by simp at hk
  | a :: t1, [], hk, _ => by simp at hk
  | a :: t1, b :: t2, hk, hv => by
    have hk1 : a.1 = b.1 := by
      have h0 := congrArg List.head? hk
      simpa using h0
    have hk2 : t1.map Prod.fst = t2.map Prod.fst := by
      have h0 := congrArg List.tail hk
      simpa using h0
    have ih := dict_pop_latlon_eq t1 t2 hk2
      (fun pr hpr => hv pr (List.mem_cons_of_mem _ hpr))
    by_cases hla : a.1 = "latitude"
    · have hlab : b.1 = "latitude" := by rw [← hk1]; exact hla
      rw [dict_pop_cons, dict_pop_cons, if_pos hla, if_pos hlab, ih]
    · have hlab : ¬ b.1 = "latitude" := by rw [← hk1]; exact hla
      by_cases hlo : a.1 = "longitude"
      · have hlob : b.1 = "longitude" := by rw [← hk1]; exact hlo
        rw [dict_pop_cons, dict_pop_cons, if_neg hla, if_neg hlab,
          dict_pop_cons, dict_pop_cons, if_pos hlo, if_pos hlob, ih]
      · have hlob : ¬ b.1 = "longitude" := by rw [← hk1]; exact hlo
        have hv0 : a.2 = b.2 := hv (a, b) (List.mem_cons_self _ _) hla hlo
        have hab : a = b := Prod.ext hk1 hv0
        subst hab
        rw [dict_pop_cons, dict_pop_cons, if_neg hla, if_neg hla,
          dict_pop_cons, dict_pop_cons, if_neg hlo, if_neg hlo, ih]

/-- Claim C2: `payload_fingerprint` returns the same hash for any two
payload dicts that are identical except in the values stored under the
`latitude` and `longitude` keys. -/
theorem c2_payload_fingerprint (d1 d2 : List (String × JVal))
    (hk : d1.map Prod.fst = d2.map Prod.fst)
    (hv : ∀ pr ∈ d1.zip d2, pr.1.1 ≠ "latitude" → pr.1.1 ≠ "longitude" → pr.1.2 = pr.2.2) :
    payload_fingerprint d1 = payload_fingerprint d2 := by
  unfold payload_fingerprint
  rw [dict_pop_latlon_eq d1 d2 hk hv]

/-- Witness for C2: two concrete payload dicts differing only in their
coordinate values hash identically. -/
theorem c2_payload_fingerprint_witness :
    payload_fingerprint
      [("latitude", JVal.num 601699), ("longitude", JVal.num 249384),
       ("name", JVal.str "Ryhmä")] =
    payload_fingerprint
      [("latitude", JVal.num 601700), ("longitude", JVal.num 249000),
       ("name", JVal.str "Ryhmä")] :=
  c2_payload_fingerprint _ _ (by decide) (by decide)

/-! ## C4: the virtual classifier -/

/-- A record whose street field mentions Teams but whose map link is
empty. -/
def objTeamsStreet : WPObj := { id := 1, katuosoite := some "Teams-kokous" }

/-- Counterexample to claim C4 as stated: for a record whose street
contains "teams", the code's classifier answers `false` while the claimed
rule (street tested for "teams" too) answers `true`. -/
theorem c4_counterexample :
    is_virtual objTeamsStreet = false ∧ classify_claimed objTeamsStreet = true := by
  decide

/-- Claim C4 amended: `is_virtual` returns true iff the city contains
"internet", the street contains "zoom", or the map link contains "zoom" or
"teams" (all case-insensitive substring tests); "teams" in the street field
is not tested. -/
theorem c4_is_virtual_amended (obj : WPObj) : is_virtual obj = classify_amended obj := by
  rfl

theorem processRecord_day_skip (cfg : Config) (st : RunState) (obj : WPObj) (ext : Oracle)
    (h : dayOf obj = none ∨ startTimeOf obj = "") :
    processRecord cfg st obj ext =
      ⟨skipSt st "missing_day_or_time", [], .skipped "missing_day_or_time", none⟩ := by
  rcases h with h | h
  · simp [processRecord, h]
  · cases hd : dayOf obj with
    | none => simp [processRecord, hd]
    | some d => simp [processRecord, hd, h]

theorem processRecord_virtual_skip (cfg : Config) (st : RunState) (obj : WPObj) (ext : Oracle)
    (d : Nat) (hday : dayOf obj = some d) (htime : startTimeOf obj ≠ "")
    (h2 : is_virtual obj = true ∧ virtualLinkOf obj = "" ∧ phoneOf obj = "") :
    processRecord cfg st obj ext =
      ⟨skipSt st "virtual_missing_link_or_phone", [],
        .skipped "virtual_missing_link_or_phone", none⟩ := by
  simp [processRecord, hday, htime, h2]

theorem processRecord_addr_skip (cfg : Config) (st : RunState) (obj : WPObj) (ext : Oracle)
    (d : Nat) (hday : dayOf obj = some d) (htime : startTimeOf obj ≠ "")
    (_h2 : ¬(is_virtual obj = true ∧ virtualLinkOf obj = "" ∧ phoneOf obj = ""))
    (h3 : is_virtual obj = false ∧ (streetOf obj = "" ∨ (cityOf obj = "" ∧ postalOf obj = ""))) :
    processRecord cfg st obj ext =
      ⟨skipSt st "in_person_missing_address", [], .skipped "in_person_missing_address", none⟩ := by
  simp [processRecord, hday, htime, h3]

theorem processRecord_formats_skip (cfg : Config) (st : RunState) (obj : WPObj) (ext : Oracle)
    (d : Nat) (hday : dayOf obj = some d) (htime : startTimeOf obj ≠ "")
    (h2 : ¬(is_virtual obj = true ∧ virtualLinkOf obj = "" ∧ phoneOf obj = ""))
    (h3 : ¬(is_virtual obj = false ∧ (streetOf obj = "" ∨ (cityOf obj = "" ∧ postalOf obj = ""))))
    (h4 : formatIdsOf cfg obj = []) :
    processRecord cfg st obj ext =
      ⟨skipSt st "no_valid_formats", [], .skipped "no_valid_formats", none⟩ := by
  simp [processRecord, hday, htime, h2, h3, h4]

theorem geoStage_skip_shape (cfg : Config) (cache : List (String × (Int × Int)))
    (ext : Oracle) (vt : Nat) (q : String) (r : String)
    (cache' : List (String × (Int × Int))) (tr : List Event)
    (h : geoStage cfg cache ext vt q = .skip r cache' tr) :
    (r = "geocode_failed" ∨ r = "geocode_error") ∧ cache' = cache := by
  unfold geoStage at h
  repeat' split at h
  all_goals simp_all

theorem processRecord_geoskip (cfg : Config) (st : RunState) (obj : WPObj) (ext : Oracle)
    (d : Nat) (r : String) (cache : List (String × (Int × Int))) (tr : List Event)
    (hday : dayOf obj = some d) (htime : startTimeOf obj ≠ "")
    (h2 : ¬(is_virtual obj = true ∧ virtualLinkOf obj = "" ∧ phoneOf obj = ""))
    (h3 : ¬(is_virtual obj = false ∧ (streetOf obj = "" ∨ (cityOf obj = "" ∧ postalOf obj = ""))))
    (h4 : formatIdsOf cfg obj ≠ [])
    (hg : geoStage cfg st.geocode_cache ext (venueTypeOf obj) (qOf obj) = .skip r cache tr) :
    processRecord cfg st obj ext =
      ⟨{ skipSt st r with geocode_cache := cache }, tr, .skipped r, none⟩ := by
  simp [processRecord, hday, htime, h2, h3, h4, hg]

theorem processRecord_unchanged (cfg : Config) (st : RunState) (obj : WPObj) (ext : Oracle)
    (d : Nat) (lat lon : Int) (cache : List (String × (Int × Int))) (tr : List Event)
    (hday : dayOf obj = some d) (htime : startTimeOf obj ≠ "")
    (h2 : ¬(is_virtual obj = true ∧ virtualLinkOf obj = "" ∧ phoneOf obj = ""))
    (h3 : ¬(is_virtual obj = false ∧ (streetOf obj = "" ∨ (cityOf obj = "" ∧ postalOf obj = ""))))
    (h4 : formatIdsOf cfg obj ≠ [])
    (hg : geoStage cfg st.geocode_cache ext (venueTypeOf obj) (qOf obj) = .proceed lat lon cache tr)
    (hfp : List.lookup (toString obj.id) st.fingerprints =
      some (payload_fingerprint (payloadDict (mkPayload cfg obj d lat lon)))) :
    processRecord cfg st obj ext =
      ⟨{ skipSt st "unchanged" with geocode_cache := cache }, tr,
        .skipped "unchanged", some (mkPayload cfg obj d lat lon)⟩ := by
  simp [processRecord, hday, htime, h2, h3, h4, hg, hfp]

theorem processRecord_publish (cfg : Config) (st : RunState) (obj : WPObj) (ext : Oracle)
    (d : Nat) (lat lon : Int) (cache : List (String × (Int × Int))) (tr : List Event)
    (hday : dayOf obj = some d) (htime : startTimeOf obj ≠ "")
    (h2 : ¬(is_virtual obj = true ∧ virtualLinkOf obj = "" ∧ phoneOf obj = ""))
    (h3 : ¬(is_virtual obj = false ∧ (streetOf obj = "" ∨ (cityOf obj = "" ∧ postalOf obj = ""))))
    (h4 : formatIdsOf cfg obj ≠ [])
    (hg : geoStage cfg st.geocode_cache ext (venueTypeOf obj) (qOf obj) = .proceed lat lon cache tr)
    (hfp : ¬ List.lookup (toString obj.id) st.fingerprints =
      some (payload_fingerprint (payloadDict (mkPayload cfg obj d lat lon)))) :
    processRecord cfg st obj ext =
      match ext.pub with
      | .ok =>
        ⟨{ st with
            geocode_cache := cache,
            created := st.created + 1,
            fingerprints := ainsert (toString obj.id)
              (payload_fingerprint (payloadDict (mkPayload cfg obj d lat lon)))
              st.fingerprints },
          tr ++ [meetingsEv], .published, some (mkPayload cfg obj d lat lon)⟩
      | .httpError code =>
        ⟨{ st with
            geocode_cache := cache,
            failed := st.failed + 1,
            failed_reasons := bump st.failed_reasons (toString code) },
          tr ++ [meetingsEv], .failed (toString code), some (mkPayload cfg obj d lat lon)⟩
      | .exc =>
        ⟨{ st with
            geocode_cache := cache,
            failed := st.failed + 1,
            failed_reasons := bump st.failed_reasons "exception" },
          tr ++ [meetingsEv], .failed "exception", some (mkPayload cfg obj d lat lon)⟩ := by
  simp [processRecord, hday, htime, h2, h3, h4, hg, hfp]

theorem venue_invariant (obj : WPObj)
    (h2 : ¬(is_virtual obj = true ∧ virtualLinkOf obj = "" ∧ phoneOf obj = ""))
    (h3 : ¬(is_virtual obj = false ∧ (streetOf obj = "" ∨ (cityOf obj = "" ∧ postalOf obj = "")))) :
    (venueTypeOf obj = VENUE_VIRTUAL → virtualLinkOf obj ≠ "" ∨ phoneOf obj ≠ "") ∧
    ((venueTypeOf obj = VENUE_IN_PERSON ∨ venueTypeOf obj = VENUE_HYBRID) →
      streetOf obj ≠ "" ∧ (cityOf obj ≠ "" ∨ postalOf obj ≠ "")) := by
  have haddr3 : is_virtual obj = false →
      streetOf obj ≠ "" ∧ (cityOf obj ≠ "" ∨ postalOf obj ≠ "") := by
    intro hvf
    by_cases hs : streetOf obj = ""
    · exact absurd ⟨hvf, Or.inl hs⟩ h3
    · refine ⟨hs, ?_⟩
      by_cases hc : cityOf obj = ""
      · by_cases hp : postalOf obj = ""
        · exact absurd ⟨hvf, Or.inr ⟨hc, hp⟩⟩ h3
        · exact Or.inr hp
      · exact Or.inl hc
  have hcontact : is_virtual obj = true → virtualLinkOf obj ≠ "" ∨ phoneOf obj ≠ "" := by
    intro hv
    by_cases hl : virtualLinkOf obj = ""
    · by_cases hp : phoneOf obj = ""
      · exact absurd ⟨hv, hl, hp⟩ h2
      · exact Or.inr hp
    · exact Or.inl hl
  simp only [venueTypeOf]
  by_cases hh : pyTruthyTok obj.rel_kokousmuodot = true ∧
      strContains (pyStrTok obj.rel_kokousmuodot) "Hybridi" = true
  · rw [if_pos hh]
    by_cases ha : streetOf obj ≠ "" ∧ (cityOf obj ≠ "" ∨ postalOf obj ≠ "")
    · rw [if_pos ha]
      exact ⟨fun hx => absurd hx (by decide), fun _ => ha⟩
    · rw [if_neg ha]
      have hv : is_virtual obj = true := by
        cases hvb : is_virtual obj with
        | true => rfl
        | false => exact absurd (haddr3 hvb) ha
      refine ⟨fun _ => hcontact hv, fun hx => ?_⟩
      rcases hx with hx | hx <;> exact absurd hx (by decide)
  · rw [if_neg hh]
    cases hvb : is_virtual obj with
    | true =>
      rw [if_pos rfl]
      refine ⟨fun _ => hcontact hvb, fun hx => ?_⟩
      rcases hx with hx | hx <;> exact absurd hx (by decide)
    | false =>
      rw [if_neg (by simp)]
      exact ⟨fun hx => absurd hx (by decide), fun _ => haddr3 hvb⟩

theorem processRecord_assembled (cfg : Config) (st : RunState) (obj : WPObj) (ext : Oracle)
    (p : Payload) (h : (processRecord cfg st obj ext).assembled = some p) :
    (∃ d lat lon, dayOf obj = some d ∧ p = mkPayload cfg obj d lat lon) ∧
    startTimeOf obj ≠ "" ∧
    ¬(is_virtual obj = true ∧ virtualLinkOf obj = "" ∧ phoneOf obj = "") ∧
    ¬(is_virtual obj = false ∧ (streetOf obj = "" ∨ (cityOf obj = "" ∧ postalOf obj = ""))) ∧
    formatIdsOf cfg obj ≠ [] := by
  by_cases h1 : dayOf obj = none ∨ startTimeOf obj = ""
  · rw [processRecord_day_skip cfg st obj ext h1] at h
    simp at h
  · push_neg at h1
    obtain ⟨h1a, h1b⟩ := h1
    cases hd : dayOf obj with
    | none => exact absurd hd h1a
    | some d =>
      by_cases h2 : is_virtual obj = true ∧ virtualLinkOf obj = "" ∧ phoneOf obj = ""
      · rw [processRecord_virtual_skip cfg st obj ext d hd h1b h2] at h
        simp at h
      · by_cases h3 : is_virtual obj = false ∧
            (streetOf obj = "" ∨ (cityOf obj = "" ∧ postalOf obj = ""))
        · rw [processRecord_addr_skip cfg st obj ext d hd h1b h2 h3] at h
          simp at h
        · by_cases h4 : formatIdsOf cfg obj = []
          · rw [processRecord_formats_skip cfg st obj ext d hd h1b h2 h3 h4] at h
            simp at h
          · cases hg : geoStage cfg st.geocode_cache ext (venueTypeOf obj) (qOf obj) with
            | skip r cache tr =>
              rw [processRecord_geoskip cfg st obj ext d r cache tr hd h1b h2 h3 h4 hg] at h
              simp at h
            | proceed lat lon cache tr =>
              refine ⟨⟨d, lat, lon, rfl, ?_⟩, h1b, h2, h3, h4⟩
              by_cases hfp : List.lookup (toString obj.id) st.fingerprints =
                  some (payload_fingerprint (payloadDict (mkPayload cfg obj d lat lon)))
              · rw [processRecord_unchanged cfg st obj ext d lat lon cache tr
                  hd h1b h2 h3 h4 hg hfp] at h
                simp at h
                exact h.symm
              · rw [processRecord_publish cfg st obj ext d lat lon cache tr
                  hd h1b h2 h3 h4 hg hfp] at h
                cases hpub : ext.pub with
                | ok => rw [hpub] at h; simp at h; exact h.symm
                | httpError code => rw [hpub] at h; simp at h; exact h.symm
                | exc => rw [hpub] at h; simp at h; exact h.symm

/-! ## State effects of one loop iteration -/

/-- Either the iteration leaves the fingerprint store untouched (and, when
it reports a publish failure, counts it under its reason), or it published
successfully. -/
theorem processRecord_state_cases (cfg : Config) (st : RunState) (obj : WPObj)
    (ext : Oracle) :
    ((processRecord cfg st obj ext).st.fingerprints = st.fingerprints ∧
      ∀ r, (processRecord cfg st obj ext).outcome = .failed r →
        (processRecord cfg st obj ext).st.failed = st.failed + 1 ∧
        (processRecord cfg st obj ext).st.failed_reasons = bump st.failed_reasons r) ∨
    (processRecord cfg st obj ext).outcome = .published := by
  by_cases h1 : dayOf obj = none ∨ startTimeOf obj = ""
  · rw [processRecord_day_skip cfg st obj ext h1]
    exact Or.inl ⟨rfl, fun r hr => by simp at hr⟩
  · push_neg at h1
    obtain ⟨h1a, h1b⟩ := h1
    cases hday : dayOf obj with
    | none => exact absurd hday h1a
    | some d =>
      by_cases h2 : is_virtual obj = true ∧ virtualLinkOf obj = "" ∧ phoneOf obj = ""
      · rw [processRecord_virtual_skip cfg st obj ext d hday h1b h2]
        exact Or.inl ⟨rfl, fun r hr => by simp at hr⟩
      · by_cases h3 : is_virtual obj = false ∧
            (streetOf obj = "" ∨ (cityOf obj = "" ∧ postalOf obj = ""))
        · rw [processRecord_addr_skip cfg st obj ext d hday h1b h2 h3]
          exact Or.inl ⟨rfl, fun r hr => by simp at hr⟩
        · by_cases h4 : formatIdsOf cfg obj = []
          · rw [processRecord_formats_skip cfg st obj ext d hday h1b h2 h3 h4]
            exact Or.inl ⟨rfl, fun r hr => by simp at hr⟩
          · cases hg : geoStage cfg st.geocode_cache ext (venueTypeOf obj) (qOf obj) with
            | skip r0 cache tr =>
              rw [processRecord_geoskip cfg st obj ext d r0 cache tr hday h1b h2 h3 h4 hg]
              exact Or.inl ⟨rfl, fun r hr => by simp at hr⟩
            | proceed lat lon cache tr =>
              by_cases hfp : List.lookup (toString obj.id) st.fingerprints =
                  some (payload_fingerprint (payloadDict (mkPayload cfg obj d lat lon)))
              · rw [processRecord_unchanged cfg st obj ext d lat lon cache tr
                  hday h1b h2 h3 h4 hg hfp]
                exact Or.inl ⟨rfl, fun r hr => by simp at hr⟩
              · rw [processRecord_publish cfg st obj ext d lat lon cache tr
                  hday h1b h2 h3 h4 hg hfp]
                cases hpub : ext.pub with
                | ok => exact Or.inr rfl
                | httpError code =>
                  refine Or.inl ⟨rfl, fun r hr => ?_⟩
                  simp only [Outcome.failed.injEq] at hr
                  rw [← hr]
                  exact ⟨rfl, rfl⟩
                | exc =>
                  refine Or.inl ⟨rfl, fun r hr => ?_⟩
                  simp only [Outcome.failed.injEq] at hr
                  rw [← hr]
                  exact ⟨rfl, rfl⟩

/-- Every input record produces exactly one outcome: processing always
continues to the next record. -/
theorem runAll_outcomes_length (cfg : Config) :
    ∀ (records : List (WPObj × Oracle)) (st : RunState),
      (runAll cfg st records).outcomes.length = records.length
  | [], _ => rfl
  | (obj, ext) :: rest, st => by
    simp [runAll, runAll_outcomes_length cfg rest]

/-- Claim C3: a failing publish call (non-2xx or a transport exception)
leaves the stored fingerprints unchanged and counts the failure under its
reason; the fingerprint store changes only when the publish call succeeded;
and every record of a run gets an outcome (processing continues past
failures). -/
theorem c3_publish_failure (cfg : Config) (st : RunState) (obj : WPObj) (ext : Oracle) :
    (∀ r, (processRecord cfg st obj ext).outcome = .failed r →
      (processRecord cfg st obj ext).st.fingerprints = st.fingerprints ∧
      (processRecord cfg st obj ext).st.failed = st.failed + 1 ∧
      (processRecord cfg st obj ext).st.failed_reasons = bump st.failed_reasons r) ∧
    ((processRecord cfg st obj ext).st.fingerprints ≠ st.fingerprints →
      (processRecord cfg st obj ext).outcome = .published) ∧
    (∀ (st0 : RunState) (records : List (WPObj × Oracle)),
      (runAll cfg st0 records).outcomes.length = records.length) := by
  refine ⟨?_, ?_, fun st0 records => runAll_outcomes_length cfg records st0⟩
  · intro r hr
    rcases processRecord_state_cases cfg st obj ext with ⟨hfp, hcount⟩ | hpub
    · exact ⟨hfp, hcount r hr⟩
    · rw [hpub] at hr
      simp at hr
  · intro hne
    rcases processRecord_state_cases cfg st obj ext with ⟨hfp, _⟩ | hpub
    · exact absurd hfp hne
    · exact hpub

/-! ## Concrete fixtures -/

/-- Registry configuration carrying only a Finnish-language format, id 1. -/
def cfgFin : Config := { format_key_to_id := [("FIN", 1)], allowed_format_ids := [1] }

/-- Registry configuration with an empty format vocabulary. -/
def cfgNoFmt : Config := {}

/-- The empty initial run state. -/
def rs0 : RunState := {}

/-- Oracle: geocoder returns no result, publish succeeds. -/
def orOk : Oracle := {}

/-- Oracle: publish fails with HTTP 422. -/
def orFail : Oracle := { pub := .httpError 422 }

/-- Oracle: the geocoder raises a transport error. -/
def orRaise : Oracle := { geo := .raise }

/-- Oracle: the geocoder returns a coordinate pair. -/
def orFound : Oracle := { geo := .found 601234 249876 }

/-- A virtual record (Zoom map link) whose notes also hold a phone
number. -/
def objBothContacts : WPObj :=
  { id := 7
    weekday := some "Maanantai"
    alkamisaika := some "19"
    karttalinkki := some "https://zoom.us/j/1"
    lisatiedot := some "+1234567" }

/-- An in-person record with a plain street address. -/
def objStreet : WPObj :=
  { id := 8
    weekday := some "Maanantai"
    alkamisaika := some "19"
    katuosoite := some "Katu 1"
    kaupunki := some "Helsinki" }

/-- An in-person record whose address fields are entirely parenthesized, so
they survive the raw-emptiness guard but clean to nothing. -/
def objParenAddr : WPObj :=
  { id := 9
    weekday := some "Maanantai"
    alkamisaika := some "19"
    katuosoite := some "(a)"
    kaupunki := some "(b)"
    maa := some "(c)" }

/-- A record whose start-time field is a single space. -/
def objSpaceTime : WPObj :=
  { id := 11
    weekday := some "Maanantai"
    alkamisaika := some " " }

/-- A virtual record whose start-time field contains letters. -/
def objLetterTime : WPObj :=
  { id := 12
    weekday := some "Maanantai"
    alkamisaika := some "19:xx"
    karttalinkki := some "https://zoom.us/j/2" }

/-- Witness for C3 at a concrete record whose publish call returns
HTTP 422. -/
theorem c3_publish_failure_witness :
    (processRecord cfgFin rs0 objBothContacts orFail).outcome = Outcome.failed "422" ∧
    (processRecord cfgFin rs0 objBothContacts orFail).st.fingerprints = rs0.fingerprints ∧
    (processRecord cfgFin rs0 objBothContacts orFail).st.failed = rs0.failed + 1 ∧
    (processRecord cfgFin rs0 objBothContacts orFail).st.failed_reasons =
      bump rs0.failed_reasons "422" := by
  have hout : (processRecord cfgFin rs0 objBothContacts orFail).outcome =
      Outcome.failed "422" := by decide
  have h := (c3_publish_failure cfgFin rs0 objBothContacts orFail).1 "422" hout
  exact ⟨hout, h.1, h.2.1, h.2.2⟩

/-! ## C1: the assembled-payload invariant -/

/-- Counterexample to claim C1 as stated: a virtual record whose map link
is a Zoom URL and whose notes hold a phone number is assembled and
published with BOTH the virtual link and the phone number non-empty, so
"exactly one non-empty" fails on its payload. -/
theorem c1_counterexample :
    (processRecord cfgFin rs0 objBothContacts orOk).assembled.map c1_claimed =
      some false ∧
    (processRecord cfgFin rs0 objBothContacts orOk).assembled.map Payload.venueType =
      some VENUE_VIRTUAL ∧
    (processRecord cfgFin rs0 objBothContacts orOk).assembled.map
      (fun p => decide (p.virtualMeetingLink ≠ "" ∧ p.phoneMeetingNumber ≠ "")) =
      some true := by
  decide

/-- Claim C1 amended: every payload the pipeline assembles satisfies — at
least one of the virtual link / virtual phone is non-empty OR the venue
type is not virtual; and every in-person or hybrid payload carries a
non-empty street and a non-empty city or postal code. -/
theorem c1_invariant_amended (cfg : Config) (st : RunState) (obj : WPObj) (ext : Oracle)
    (p : Payload) (h : (processRecord cfg st obj ext).assembled = some p) :
    (p.venueType = VENUE_VIRTUAL → p.virtualMeetingLink ≠ "" ∨ p.phoneMeetingNumber ≠ "") ∧
    ((p.venueType = VENUE_IN_PERSON ∨ p.venueType = VENUE_HYBRID) →
      p.locationStreet ≠ "" ∧ (p.locationCity ≠ "" ∨ p.locationPostalCode ≠ "")) := by
  obtain ⟨⟨d, lat, lon, hday, hp⟩, htime, h2, h3, h4⟩ :=
    processRecord_assembled cfg st obj ext p h
  subst hp
  have hv := venue_invariant obj h2 h3
  simpa [mkPayload] using hv

/-- The payload assembled for `objBothContacts` under `cfgFin`. -/
def payloadBoth : Payload := mkPayload cfgFin objBothContacts 1 601699 249384

/-- Witness for the amended C1 at a concrete assembled payload. -/
theorem c1_invariant_amended_witness :
    (processRecord cfgFin rs0 objBothContacts orOk).assembled = some payloadBoth ∧
    (payloadBoth.venueType = VENUE_VIRTUAL →
      payloadBoth.virtualMeetingLink ≠ "" ∨ payloadBoth.phoneMeetingNumber ≠ "") := by
  have ha : (processRecord cfgFin rs0 objBothContacts orOk).assembled = some payloadBoth := by
    decide
  exact ⟨ha, (c1_invariant_amended cfgFin rs0 objBothContacts orOk payloadBoth ha).1⟩

/-! ## C7: empty geocode query -/

/-- With an empty cleaned query the coordinate stage uses the default
coordinates, touches neither the cache nor the network, and never skips. -/
theorem geoStage_empty_q (cfg : Config) (cache : List (String × (Int × Int)))
    (ext : Oracle) (vt : Nat) :
    geoStage cfg cache ext vt "" = .proceed cfg.default_lat cfg.default_lon cache [] := by
  unfold geoStage
  split
  · rw [if_neg (by simp)]
  · rfl

/-- Claim C7 amended, first half: for every record that reaches assembly
with an empty cleaned geocode query, the payload carries the default
coordinates, the geocode cache is unchanged, and no geocoder call was
made.  (The claim's second half — that this branch is unreachable for
in-person/hybrid venues — is refuted by `c7_counterexample`.) -/
theorem c7_empty_query_amended (cfg : Config) (st : RunState) (obj : WPObj)
    (ext : Oracle) (p : Payload)
    (h : (processRecord cfg st obj ext).assembled = some p)
    (hq : qOf obj = "") :
    p.latitude = cfg.default_lat ∧ p.longitude = cfg.default_lon ∧
    (processRecord cfg st obj ext).st.geocode_cache = st.geocode_cache ∧
    geoEv ∉ (processRecord cfg st obj ext).trace := by
  obtain ⟨⟨d0, lat0, lon0, hday0, _⟩, htime, h2, h3, h4⟩ :=
    processRecord_assembled cfg st obj ext p h
  cases hday : dayOf obj with
  | none => rw [hday] at hday0; simp at hday0
  | some d =>
    have hg : geoStage cfg st.geocode_cache ext (venueTypeOf obj) (qOf obj) =
        .proceed cfg.default_lat cfg.default_lon st.geocode_cache [] := by
      rw [hq]
      exact geoStage_empty_q cfg st.geocode_cache ext (venueTypeOf obj)
    by_cases hfp : List.lookup (toString obj.id) st.fingerprints =
        some (payload_fingerprint (payloadDict
          (mkPayload cfg obj d cfg.default_lat cfg.default_lon)))
    · have he := processRecord_unchanged cfg st obj ext d cfg.default_lat cfg.default_lon
        st.geocode_cache [] hday htime h2 h3 h4 hg hfp
      rw [he] at h
      simp only [Option.some.injEq] at h
      rw [he, ← h]
      refine ⟨rfl, rfl, rfl, by simp⟩
    · have he := processRecord_publish cfg st obj ext d cfg.default_lat cfg.default_lon
        st.geocode_cache [] hday htime h2 h3 h4 hg hfp
      cases hpub : ext.pub with
      | ok =>
        rw [hpub] at he
        rw [he] at h
        simp only [Option.some.injEq] at h
        rw [he, ← h]
        exact ⟨rfl, rfl, rfl, by simp [geoEv, meetingsEv]⟩
      | httpError code =>
        rw [hpub] at he
        rw [he] at h
        simp only [Option.some.injEq] at h
        rw [he, ← h]
        exact ⟨rfl, rfl, rfl, by simp [geoEv, meetingsEv]⟩
      | exc =>
        rw [hpub] at he
        rw [he] at h
        simp only [Option.some.injEq] at h
        rw [he, ← h]
        exact ⟨rfl, rfl, rfl, by simp [geoEv, meetingsEv]⟩

/-- Counterexample to claim C7 as stated: an in-person record whose raw
street and city are non-empty but clean to nothing (fully parenthesized,
and likewise the country field) reaches coordinate resolution and assembly
with venue type in-person and an empty cleaned query — the empty-query
branch is reachable for in-person records. -/
theorem c7_counterexample :
    qOf objParenAddr = "" ∧
    (processRecord cfgFin rs0 objParenAddr orOk).assembled.map Payload.venueType =
      some VENUE_IN_PERSON ∧
    (processRecord cfgFin rs0 objParenAddr orOk).assembled.map Payload.latitude =
      some cfgFin.default_lat ∧
    (processRecord cfgFin rs0 objParenAddr orOk).st.geocode_cache = rs0.geocode_cache := by
  decide

/-- Witness for the amended C7 at `objParenAddr`. -/
theorem c7_empty_query_amended_witness :
    (processRecord cfgFin rs0 objParenAddr orOk).assembled =
      some (mkPayload cfgFin objParenAddr 1 601699 249384) ∧
    (mkPayload cfgFin objParenAddr 1 601699 249384).latitude = cfgFin.default_lat ∧
    geoEv ∉ (processRecord cfgFin rs0 objParenAddr orOk).trace := by
  have ha : (processRecord cfgFin rs0 objParenAddr orOk).assembled =
      some (mkPayload cfgFin objParenAddr 1 601699 249384) := by decide
  have hq : qOf objParenAddr = "" := by decide
  have h := c7_empty_query_amended cfgFin rs0 objParenAddr orOk
    (mkPayload cfgFin objParenAddr 1 601699 249384) ha hq
  exact ⟨ha, h.1, h.2.2.2⟩

/-! ## C5: the FIN fallback and the no_valid_formats skip -/

/-- Claim C5: when the resolved-and-filtered id list is empty, then — if
the `FIN` key resolves to a currently valid id, the payload's format id
list is exactly that single id; otherwise (no usable fallback) a record
that was not already skipped by an earlier guard is skipped with reason
`no_valid_formats`, assembling and publishing nothing. -/
theorem c5_format_fallback (cfg : Config) (st : RunState) (obj : WPObj) (ext : Oracle)
    (hraw : formatIdsRaw cfg obj = []) :
    (∀ fin, List.lookup "FIN" cfg.format_key_to_id = some fin →
      cfg.allowed_format_ids.contains fin = true →
      formatIdsOf cfg obj = [fin] ∧
      ∀ p, (processRecord cfg st obj ext).assembled = some p → p.formatIds = [fin]) ∧
    (finFallback cfg = false →
      (processRecord cfg st obj ext).outcome ≠ .skipped "missing_day_or_time" →
      (processRecord cfg st obj ext).outcome ≠ .skipped "virtual_missing_link_or_phone" →
      (processRecord cfg st obj ext).outcome ≠ .skipped "in_person_missing_address" →
      processRecord cfg st obj ext =
        ⟨skipSt st "no_valid_formats", [], .skipped "no_valid_formats", none⟩) := by
  constructor
  · intro fin hfin hmem
    have hmem' : fin ∈ cfg.allowed_format_ids := by simpa using hmem
    have hids : formatIdsOf cfg obj = [fin] := by
      simp [formatIdsOf, hraw, hfin, hmem']
    refine ⟨hids, fun p hp => ?_⟩
    obtain ⟨⟨d, lat, lon, _, hpe⟩, _, _, _, _⟩ :=
      processRecord_assembled cfg st obj ext p hp
    subst hpe
    simpa [mkPayload] using hids
  · intro hff hs1 hs2 hs3
    have h4 : formatIdsOf cfg obj = [] := by
      unfold finFallback at hff
      cases hfin : List.lookup "FIN" cfg.format_key_to_id with
      | none => simp [formatIdsOf, hraw, hfin]
      | some fin =>
        rw [hfin] at hff
        simp at hff
        simp [formatIdsOf, hraw, hfin, hff]
    by_cases h1 : dayOf obj = none ∨ startTimeOf obj = ""
    · exact absurd (by rw [processRecord_day_skip cfg st obj ext h1]) hs1
    · push_neg at h1
      obtain ⟨h1a, h1b⟩ := h1
      cases hday : dayOf obj with
      | none => exact absurd hday h1a
      | some d =>
        by_cases h2 : is_virtual obj = true ∧ virtualLinkOf obj = "" ∧ phoneOf obj = ""
        · exact absurd (by rw [processRecord_virtual_skip cfg st obj ext d hday h1b h2]) hs2
        · by_cases h3 : is_virtual obj = false ∧
              (streetOf obj = "" ∨ (cityOf obj = "" ∧ postalOf obj = ""))
          · exact absurd (by rw [processRecord_addr_skip cfg st obj ext d hday h1b h2 h3]) hs3
          · exact processRecord_formats_skip cfg st obj ext d hday h1b h2 h3 h4

/-- Witness for C5: under `cfgFin` the record resolves no format ids of its
own, the FIN fallback fills in id 1, and the published payload carries
exactly `[1]`; under `cfgNoFmt` (no vocabulary at all) the same record is
skipped with `no_valid_formats`. -/
theorem c5_format_fallback_witness :
    formatIdsOf cfgFin objBothContacts = [1] ∧
    (processRecord cfgFin rs0 objBothContacts orOk).assembled.map Payload.formatIds =
      some [1] ∧
    processRecord cfgNoFmt rs0 objBothContacts orOk =
      ⟨skipSt rs0 "no_valid_formats", [], .skipped "no_valid_formats", none⟩ := by
  have hraw : formatIdsRaw cfgFin objBothContacts = [] := by decide
  have hmain := (c5_format_fallback cfgFin rs0 objBothContacts orOk hraw).1 1 rfl rfl
  have ha : (processRecord cfgFin rs0 objBothContacts orOk).assembled =
      some (mkPayload cfgFin objBothContacts 1 601699 249384) := by decide
  have hskip := (c5_format_fallback cfgNoFmt rs0 objBothContacts orOk (by decide)).2
    rfl (by decide) (by decide) (by decide)
  refine ⟨hmain.1, ?_, hskip⟩
  rw [ha]
  simp [hmain.2 _ ha]

/-! ## C6: the rate-limit delay -/

/-- The events a coordinate-resolution block can emit. -/
def geoResTrace : GeoRes → List Event
  | .proceed _ _ _ tr => tr
  | .skip _ _ tr => tr

/-- Does every geocoder call in the trace have the rate-limit sleep as the
immediately following event? -/
def geoFollowed : List Event → Bool
  | [] => true
  | [e] => !(e == geoEv)
  | e :: e2 :: rest =>
    if e == geoEv then (e2 == Event.sleep) && geoFollowed (e2 :: rest)
    else geoFollowed (e2 :: rest)

/-- `geoFollowed` is preserved by concatenation. -/
theorem geoFollowed_append : ∀ (a b : List Event),
    geoFollowed a = true → geoFollowed b = true → geoFollowed (a ++ b) = true
  | [], b, _, hb => hb
  | [e], b, ha, hb => by
    simp only [geoFollowed, Bool.not_eq_true'] at ha
    cases b with
    | nil => simp [geoFollowed, ha]
    | cons b1 bt =>
      simp only [List.cons_append, List.nil_append, geoFollowed]
      rw [if_neg (by simp [ha])]
      exact hb
  | e :: e2 :: rest, b, ha, hb => by
    simp only [List.cons_append, geoFollowed] at ha ⊢
    by_cases he : (e == geoEv) = true
    · rw [if_pos he] at ha ⊢
      simp only [Bool.and_eq_true] at ha ⊢
      exact ⟨ha.1, geoFollowed_append (e2 :: rest) b ha.2 hb⟩
    · rw [if_neg he] at ha ⊢
      exact geoFollowed_append (e2 :: rest) b ha hb

/-- Unless the geocoder raised, the coordinate stage's trace is empty or
the call followed by the sleep. -/
theorem geoStage_trace_no_raise (cfg : Config) (cache : List (String × (Int × Int)))
    (ext : Oracle) (vt : Nat) (q : String) (hraise : ext.geo ≠ .raise) :
    geoResTrace (geoStage cfg cache ext vt q) = [] ∨
    geoResTrace (geoStage cfg cache ext vt q) = [geoEv, .sleep] := by
  unfold geoStage
  repeat' split
  all_goals simp_all [geoResTrace]

/-- When the geocoder raised, the coordinate stage's trace is empty (cache
hit or no query) or the bare call without a sleep. -/
theorem geoStage_trace_raise (cfg : Config) (cache : List (String × (Int × Int)))
    (ext : Oracle) (vt : Nat) (q : String) :
    geoResTrace (geoStage cfg cache ext vt q) = [] ∨
    geoResTrace (geoStage cfg cache ext vt q) = [geoEv, .sleep] ∨
    geoResTrace (geoStage cfg cache ext vt q) = [geoEv] := by
  unfold geoStage
  repeat' split
  all_goals simp_all [geoResTrace]

/-- Unless the geocoder raised, every geocoder call in one record's trace
is immediately followed by the rate-limit sleep. -/
theorem processRecord_geoFollowed (cfg : Config) (st : RunState) (obj : WPObj)
    (ext : Oracle) (hraise : ext.geo ≠ .raise) :
    geoFollowed (processRecord cfg st obj ext).trace = true := by
  have htr : ∀ tr2, geoResTrace (geoStage cfg st.geocode_cache ext (venueTypeOf obj)
      (qOf obj)) = tr2 → geoFollowed tr2 = true := by
    intro tr2 h
    rcases geoStage_trace_no_raise cfg st.geocode_cache ext (venueTypeOf obj)
      (qOf obj) hraise with he | he <;> rw [h] at he <;> rw [he] <;> decide
  by_cases h1 : dayOf obj = none ∨ startTimeOf obj = ""
  · rw [processRecord_day_skip cfg st obj ext h1]
    rfl
  · push_neg at h1
    obtain ⟨h1a, h1b⟩ := h1
    cases hday : dayOf obj with
    | none => exact absurd hday h1a
    | some d =>
      by_cases h2 : is_virtual obj = true ∧ virtualLinkOf obj = "" ∧ phoneOf obj = ""
      · rw [processRecord_virtual_skip cfg st obj ext d hday h1b h2]
        rfl
      · by_cases h3 : is_virtual obj = false ∧
            (streetOf obj = "" ∨ (cityOf obj = "" ∧ postalOf obj = ""))
        · rw [processRecord_addr_skip cfg st obj ext d hday h1b h2 h3]
          rfl
        · by_cases h4 : formatIdsOf cfg obj = []
          · rw [processRecord_formats_skip cfg st obj ext d hday h1b h2 h3 h4]
            rfl
          · cases hg : geoStage cfg st.geocode_cache ext (venueTypeOf obj) (qOf obj) with
            | skip r0 cache tr =>
              rw [processRecord_geoskip cfg st obj ext d r0 cache tr hday h1b h2 h3 h4 hg]
              exact htr tr (by rw [hg]; rfl)
            | proceed lat lon cache tr =>
              have htrp : geoFollowed tr = true := htr tr (by rw [hg]; rfl)
              by_cases hfp : List.lookup (toString obj.id) st.fingerprints =
                  some (payload_fingerprint (payloadDict (mkPayload cfg obj d lat lon)))
              · rw [processRecord_unchanged cfg st obj ext d lat lon cache tr
                  hday h1b h2 h3 h4 hg hfp]
                exact htrp
              · rw [processRecord_publish cfg st obj ext d lat lon cache tr
                  hday h1b h2 h3 h4 hg hfp]
                cases hpub : ext.pub with
                | ok => exact geoFollowed_append tr [meetingsEv] htrp (by decide)
                | httpError code => exact geoFollowed_append tr [meetingsEv] htrp (by decide)
                | exc => exact geoFollowed_append tr [meetingsEv] htrp (by decide)

/-- Claim C6 amended: in every run in which no geocoder call raises a
transport exception, every geocoder call is immediately followed by the
fixed rate-limit sleep.  (As stated — "regardless of outcome" — the claim
fails: see the counterexample, where a raising call is not followed by the
sleep, because the `time.sleep(1.1)` sits after the call inside the `try`
block and is skipped when the call raises.) -/
theorem c6_sleep_after_geocode (cfg : Config) :
    ∀ (records : List (WPObj × Oracle)) (st : RunState),
      (∀ re ∈ records, re.2.geo ≠ GeoOutcome.raise) →
      geoFollowed (runAll cfg st records).trace = true
  | [], _, _ => rfl
  | (obj, ext) :: rest, st, hall => by
    have h1 : geoFollowed (processRecord cfg st obj ext).trace = true :=
      processRecord_geoFollowed cfg st obj ext
        (hall (obj, ext) (List.mem_cons_self _ _))
    have h2 : geoFollowed (runAll cfg (processRecord cfg st obj ext).st rest).trace = true :=
      c6_sleep_after_geocode cfg rest (processRecord cfg st obj ext).st
        (fun re hre => hall re (List.mem_cons_of_mem _ hre))
    simp only [runAll]
    exact geoFollowed_append _ _ h1 h2

/-- Counterexample to claim C6 as stated: a run over one in-person record
whose live geocode call raises emits the call with no sleep after it. -/
theorem c6_counterexample :
    geoFollowed (runAll cfgFin rs0 [(objStreet, orRaise)]).trace = false ∧
    (runAll cfgFin rs0 [(objStreet, orRaise)]).trace = [geoEv] := by
  decide

/-- Witness for the amended C6: a one-record run whose geocode call
returns a result satisfies the sleep-after-call property. -/
theorem c6_sleep_after_geocode_witness :
    geoFollowed (runAll cfgFin rs0 [(objStreet, orFound)]).trace = true :=
  c6_sleep_after_geocode cfgFin [(objStreet, orFound)] rs0 (by decide)

/-! ## C9: the only registry mutation is meeting creation -/

/-- Is the event a non-mutating request or one of the two POSTs the
pipeline issues (login, meeting creation)?  No PUT/PATCH/DELETE, and no
meeting-specific URL, ever appears. -/
def createOnly (e : Event) : Bool :=
  match e with
  | .sleep => true
  | .http m _ p =>
    m == "GET" || (m == "POST" && (p == "/api/v1/auth/token" || p == "/api/v1/meetings"))

/-- Every event of one record's trace is a geocoder call, a sleep, or the
meeting-creation POST. -/
theorem processRecord_trace_events (cfg : Config) (st : RunState) (obj : WPObj)
    (ext : Oracle) :
    ∀ e ∈ (processRecord cfg st obj ext).trace,
      e = geoEv ∨ e = Event.sleep ∨ e = meetingsEv := by
  have htr : ∀ e ∈ geoResTrace (geoStage cfg st.geocode_cache ext (venueTypeOf obj)
      (qOf obj)), e = geoEv ∨ e = Event.sleep ∨ e = meetingsEv := by
    rcases geoStage_trace_raise cfg st.geocode_cache ext (venueTypeOf obj) (qOf obj)
      with he | he | he <;> rw [he] <;> intro e hme <;> simp at hme <;> tauto
  by_cases h1 : dayOf obj = none ∨ startTimeOf obj = ""
  · rw [processRecord_day_skip cfg st obj ext h1]
    intro e hme
    simp at hme
  · push_neg at h1
    obtain ⟨h1a, h1b⟩ := h1
    cases hday : dayOf obj with
    | none => exact absurd hday h1a
    | some d =>
      by_cases h2 : is_virtual obj = true ∧ virtualLinkOf obj = "" ∧ phoneOf obj = ""
      · rw [processRecord_virtual_skip cfg st obj ext d hday h1b h2]
        intro e hme
        simp at hme
      · by_cases h3 : is_virtual obj = false ∧
            (streetOf obj = "" ∨ (cityOf obj = "" ∧ postalOf obj = ""))
        · rw [processRecord_addr_skip cfg st obj ext d hday h1b h2 h3]
          intro e hme
          simp at hme
        · by_cases h4 : formatIdsOf cfg obj = []
          · rw [processRecord_formats_skip cfg st obj ext d hday h1b h2 h3 h4]
            intro e hme
            simp at hme
          · cases hg : geoStage cfg st.geocode_cache ext (venueTypeOf obj) (qOf obj) with
            | skip r0 cache tr =>
              rw [processRecord_geoskip cfg st obj ext d r0 cache tr hday h1b h2 h3 h4 hg]
              intro e hme
              exact htr e (by rw [hg]; exact hme)
            | proceed lat lon cache tr =>
              have htrp : ∀ e ∈ tr, e = geoEv ∨ e = Event.sleep ∨ e = meetingsEv :=
                fun e hme => htr e (by rw [hg]; exact hme)
              by_cases hfp : List.lookup (toString obj.id) st.fingerprints =
                  some (payload_fingerprint (payloadDict (mkPayload cfg obj d lat lon)))
              · rw [processRecord_unchanged cfg st obj ext d lat lon cache tr
                  hday h1b h2 h3 h4 hg hfp]
                exact htrp
              · rw [processRecord_publish cfg st obj ext d lat lon cache tr
                  hday h1b h2 h3 h4 hg hfp]
                cases hpub : ext.pub with
                | ok =>
                  intro e hme
                  rcases List.mem_append.mp hme with hm | hm
                  · exact htrp e hm
                  · simp at hm
                    simp [hm]
                | httpError code =>
                  intro e hme
                  rcases List.mem_append.mp hme with hm | hm
                  · exact htrp e hm
                  · simp at hm
                    simp [hm]
                | exc =>
                  intro e hme
                  rcases List.mem_append.mp hme with hm | hm
                  · exact htrp e hm
                  · simp at hm
                    simp [hm]

/-- Claim C9: every event of a whole run's trace — the source page fetches,
the login, the format fetch, the geocoder calls, the sleeps and the
publishes — is either non-mutating (GET / sleep) or a POST to the auth or
meetings collection endpoint: the pipeline never updates or deletes an
existing registry meeting. -/
theorem c9_create_only (cfg : Config) (st : RunState) (pages : Nat)
    (records : List (WPObj × Oracle)) :
    ∀ e ∈ mainTrace cfg st pages records, createOnly e = true := by
  have hrun : ∀ (recs : List (WPObj × Oracle)) (st0 : RunState),
      ∀ e ∈ (runAll cfg st0 recs).trace, createOnly e = true := by
    intro recs
    induction recs with
    | nil => intro st0 e hme; simp [runAll] at hme
    | cons re rest ih =>
      intro st0 e hme
      obtain ⟨obj, ext⟩ := re
      simp only [runAll] at hme
      rcases List.mem_append.mp hme with hm | hm
      · rcases processRecord_trace_events cfg st0 obj ext e hm with he | he | he <;>
          rw [he] <;> decide
      · exact ih (processRecord cfg st0 obj ext).st e hm
  intro e hme
  unfold mainTrace at hme
  rcases List.mem_append.mp hme with hm | hm
  · rcases List.mem_append.mp hm with hm2 | hm2
    · rw [List.eq_of_mem_replicate hm2]
      decide
    · simp at hm2
      rcases hm2 with he | he <;> rw [he] <;> decide
  · exact hrun records st e hm

/-- Witness for C9 at a concrete one-page, one-record run: the publish
event itself is in the trace and satisfies the create-only property. -/
theorem c9_create_only_witness :
    meetingsEv ∈ mainTrace cfgFin rs0 1 [(objBothContacts, orOk)] ∧
    createOnly meetingsEv = true :=
  ⟨by decide, c9_create_only cfgFin rs0 1 [(objBothContacts, orOk)] meetingsEv (by decide)⟩

/-! ## C10: unparseable start times -/

/-- Is the (already stripped and dot-substituted) start-time string parsed
into hours and minutes by `normalize_time`?  Mirrors that function's two
parse branches. -/
def timeParses (s : String) : Bool :=
  let parts := (splitOnChar ':' s.toList).map String.mk
  (decide (parts.length = 1) && pyIsDigitStr (parts.headD "")) ||
  (decide (2 ≤ parts.length) && (pyIntOpt (parts.headD "")).isSome &&
    (pyIntOpt ((parts.drop 1).headD "")).isSome)

/-- Is the string of the shape two digits, a colon, two digits? -/
def isHHMMForm (s : String) : Bool :=
  match s.toList with
  | [a, b, c, d, e] => a.isDigit && b.isDigit && (c == ':') && d.isDigit && e.isDigit
  | _ => false

/-- ASCII digits are not Python whitespace. -/
theorem not_space_of_digit (c : Char) (hd : c.isDigit = true) : pyIsSpace c = false := by
  unfold pyIsSpace
  by_contra hb
  simp only [Bool.not_eq_false, Bool.or_eq_true, beq_iff_eq] at hb
  rcases hb with ((((h | h) | h) | h) | h) | h <;> subst h <;> exact absurd hd (by decide)

/-- Stripping leaves an all-digit list unchanged. -/
theorem pyStripL_all_digits (l : List Char) (h : l.all Char.isDigit = true) :
    pyStripL l = l := by
  have hns : ∀ c ∈ l, pyIsSpace c = false := by
    intro c hc
    exact not_space_of_digit c (by rw [List.all_eq_true] at h; exact h c hc)
  have h1 : l.dropWhile pyIsSpace = l := by
    cases l with
    | nil => rfl
    | cons c t =>
      rw [List.dropWhile_cons, hns c (List.mem_cons_self _ _)]
      simp
  unfold pyStripL
  rw [h1]
  have h2 : l.reverse.dropWhile pyIsSpace = l.reverse := by
    cases hr : l.reverse with
    | nil => rfl
    | cons c t =>
      have hc : c ∈ l := by
        rw [← List.mem_reverse, hr]
        exact List.mem_cons_self _ _
      rw [List.dropWhile_cons, hns c hc]
      simp
  rw [h2, List.reverse_reverse]

/-- A non-empty all-digit string parses as a Python int. -/
theorem pyIntOpt_digits (l : List Char) (hne : l ≠ [])
    (h : l.all Char.isDigit = true) :
    pyIntOpt (String.mk l) = some (Int.ofNat (digitsToNat l)) := by
  have hstrip : pyStripL (String.mk l).toList = l := pyStripL_all_digits l h
  cases l with
  | nil => exact absurd rfl hne
  | cons c t =>
    have hcd : c.isDigit = true := by
      rw [List.all_eq_true] at h
      exact h c (List.mem_cons_self _ _)
    have hplus : ¬ c = '+' := by
      intro he
      rw [he] at hcd
      exact absurd hcd (by decide)
    have hminus : ¬ c = '-' := by
      intro he
      rw [he] at hcd
      exact absurd hcd (by decide)
    simp only [pyIntOpt, hstrip]
    rw [if_neg hplus, if_neg hminus, if_pos h]

/-- The branch structure of `normalize_time` past the empty-input test:
when neither parse branch applies, the input string comes straight
through. -/
theorem normalize_time_branch (s : String) (parts : List String)
    (hp1 : ¬(parts.length = 1 ∧ pyIsDigitStr (parts.headD "") = true))
    (hp2 : ¬(2 ≤ parts.length ∧ (pyIntOpt (parts.headD "")).isSome = true ∧
      (pyIntOpt ((parts.drop 1).headD "")).isSome = true)) :
    (if parts.length = 1 ∧ pyIsDigitStr (parts.headD "") = true then
      fmt02 (Int.ofNat (digitsToNat ((parts.headD "")).toList)) ++ ":00"
    else if 2 ≤ parts.length then
      match pyIntOpt (parts.headD ""), pyIntOpt ((parts.drop 1).headD "") with
      | some h, some m => fmt02 h ++ ":" ++ fmt02 m
      | _, _ => s
    else s) = s := by
  rw [if_neg hp1]
  by_cases hc2 : 2 ≤ parts.length
  · rw [if_pos hc2]
    cases hA : pyIntOpt (parts.headD "") with
    | none => rfl
    | some hh =>
      cases hB : pyIntOpt ((parts.drop 1).headD "") with
      | none => rfl
      | some mm =>
        exact absurd ⟨hc2, by rw [hA]; rfl, by rw [hB]; rfl⟩ hp2
  · rw [if_neg hc2]

/-- When neither parse branch of `normalize_time` applies, the function
returns the stripped, dot-substituted input. -/
theorem normalize_time_unparsed (val : String) (h0 : val ≠ "")
    (h2 : timeParses (dotToColon (pyStrip val)) = false) :
    normalize_time val = dotToColon (pyStrip val) := by
  unfold timeParses at h2
  simp only [Bool.or_eq_false_iff, Bool.and_eq_false_iff] at h2
  have hp1 : ¬(((splitOnChar ':' (dotToColon (pyStrip val)).toList).map String.mk).length = 1 ∧
      pyIsDigitStr (((splitOnChar ':' (dotToColon (pyStrip val)).toList).map
        String.mk).headD "") = true) := by
    intro hc
    rcases h2.1 with hx | hx
    · rw [decide_eq_false_iff_not] at hx
      exact hx hc.1
    · rw [hc.2] at hx
      simp at hx
  have hp2 : ¬(2 ≤ ((splitOnChar ':' (dotToColon (pyStrip val)).toList).map String.mk).length ∧
      (pyIntOpt (((splitOnChar ':' (dotToColon (pyStrip val)).toList).map
        String.mk).headD "")).isSome = true ∧
      (pyIntOpt ((((splitOnChar ':' (dotToColon (pyStrip val)).toList).map
        String.mk).drop 1).headD "")).isSome = true) := by
    intro hc
    rcases h2.2 with hx | hx
    · rcases hx with hx | hx
      · rw [decide_eq_false_iff_not] at hx
        exact hx hc.1
      · rw [hc.2.1] at hx
        simp at hx
    · rw [hc.2.2] at hx
      simp at hx
  have haux := normalize_time_branch (dotToColon (pyStrip val))
    ((splitOnChar ':' (dotToColon (pyStrip val)).toList).map String.mk) hp1 hp2
  unfold normalize_time
  rw [if_neg h0]
  exact haux

/-- A digit is not a colon. -/
theorem digit_ne_colon (c : Char) (h : c.isDigit = true) : (c == ':') = false := by
  cases hq : c == ':' with
  | false => rfl
  | true =>
    have he : c = ':' := eq_of_beq hq
    subst he
    exact absurd h (by decide)

/-- Splitting a two-digits/colon/two-digits list on the colon. -/
theorem splitOnChar_HHMM (a b d e : Char) (ha : (a == ':') = false)
    (hb : (b == ':') = false) (hd : (d == ':') = false) (he : (e == ':') = false) :
    splitOnChar ':' [a, b, ':', d, e] = [[a, b], [d, e]] := by
  simp [splitOnChar, ha, hb, hd, he]

/-- A string in HH:MM shape is parsed by `normalize_time`'s second
branch. -/
theorem timeParses_of_HHMM (s : String) (h : isHHMMForm s = true) :
    timeParses s = true := by
  cases hl : s.toList with
  | nil => unfold isHHMMForm at h; rw [hl] at h; simp at h
  | cons a l1 =>
    cases l1 with
    | nil => unfold isHHMMForm at h; rw [hl] at h; simp at h
    | cons b l2 =>
      cases l2 with
      | nil => unfold isHHMMForm at h; rw [hl] at h; simp at h
      | cons c l3 =>
        cases l3 with
        | nil => unfold isHHMMForm at h; rw [hl] at h; simp at h
        | cons d l4 =>
          cases l4 with
          | nil => unfold isHHMMForm at h; rw [hl] at h; simp at h
          | cons e l5 =>
            cases l5 with
            | cons f t => unfold isHHMMForm at h; rw [hl] at h; simp at h
            | nil =>
              unfold isHHMMForm at h
              rw [hl] at h
              simp only [Bool.and_eq_true, beq_iff_eq] at h
              obtain ⟨⟨⟨⟨hA, hB⟩, hC⟩, hD⟩, hE⟩ := h
              subst hC
              unfold timeParses
              rw [hl]
              rw [splitOnChar_HHMM a b d e (digit_ne_colon a hA) (digit_ne_colon b hB)
                (digit_ne_colon d hD) (digit_ne_colon e hE)]
              have h1 : (pyIntOpt (String.mk [a, b])).isSome = true := by
                rw [pyIntOpt_digits [a, b] (by simp) (by simp [hA, hB])]
                rfl
              have h2 : (pyIntOpt (String.mk [d, e])).isSome = true := by
                rw [pyIntOpt_digits [d, e] (by simp) (by simp [hD, hE])]
                rfl
              simp [h1, h2]

/-- A start time `normalize_time` could not parse is never of HH:MM
shape. -/
theorem isHHMM_false_of_unparsed (s : String) (h : timeParses s = false) :
    isHHMMForm s = false := by
  cases hf : isHHMMForm s with
  | false => rfl
  | true =>
    rw [timeParses_of_HHMM s hf] at h
    exact Bool.noConfusion h

/-- The dot-to-colon substitution preserves non-emptiness. -/
theorem dotToColon_ne_empty (s : String) (h : s ≠ "") : dotToColon s ≠ "" := by
  intro he
  apply h
  have hm : s.toList.map (fun c => if c == '.' then ':' else c) = [] := by
    have hc := congrArg String.toList he
    simpa [dotToColon] using hc
  have h2 : s.toList = [] := List.map_eq_nil_iff.mp hm
  cases s with
  | mk data =>
    have h3 : data = [] := h2
    rw [h3]

/-- If the first guard's inputs are fine, the step never skips with
`missing_day_or_time`. -/
theorem processRecord_not_day_skip (cfg : Config) (st : RunState) (obj : WPObj)
    (ext : Oracle) (d : Nat) (hday : dayOf obj = some d)
    (htime : startTimeOf obj ≠ "") :
    (processRecord cfg st obj ext).outcome ≠ .skipped "missing_day_or_time" := by
  by_cases h2 : is_virtual obj = true ∧ virtualLinkOf obj = "" ∧ phoneOf obj = ""
  · rw [processRecord_virtual_skip cfg st obj ext d hday htime h2]
    simp
  · by_cases h3 : is_virtual obj = false ∧
        (streetOf obj = "" ∨ (cityOf obj = "" ∧ postalOf obj = ""))
    · rw [processRecord_addr_skip cfg st obj ext d hday htime h2 h3]
      simp
    · by_cases h4 : formatIdsOf cfg obj = []
      · rw [processRecord_formats_skip cfg st obj ext d hday htime h2 h3 h4]
        simp
      · cases hg : geoStage cfg st.geocode_cache ext (venueTypeOf obj) (qOf obj) with
        | skip r0 cache tr =>
          rw [processRecord_geoskip cfg st obj ext d r0 cache tr hday htime h2 h3 h4 hg]
          have hr := (geoStage_skip_shape cfg st.geocode_cache ext (venueTypeOf obj)
            (qOf obj) r0 cache tr hg).1
          rcases hr with hr | hr <;> rw [hr] <;> simp
        | proceed lat lon cache tr =>
          by_cases hfp : List.lookup (toString obj.id) st.fingerprints =
              some (payload_fingerprint (payloadDict (mkPayload cfg obj d lat lon)))
          · rw [processRecord_unchanged cfg st obj ext d lat lon cache tr
              hday htime h2 h3 h4 hg hfp]
            simp
          · rw [processRecord_publish cfg st obj ext d lat lon cache tr
              hday htime h2 h3 h4 hg hfp]
            cases hpub : ext.pub with
            | ok => simp
            | httpError code => simp
            | exc => simp

/-- Claim C10 amended: for every non-empty start-time string whose
whitespace-stripped form is still non-empty and which `normalize_time`
cannot parse into hours and minutes, the function returns the non-empty
stripped dot-to-colon substitution of the input (which is never of HH:MM
shape); such a record passes the step-1 guard whenever its weekday is
mapped, and any payload assembled for it carries that non-HH:MM string as
its start time.  (As stated the claim fails for inputs that strip to
empty, e.g. a lone space: see the counterexample.) -/
theorem c10_unparseable_start_time (cfg : Config) (st : RunState) (obj : WPObj)
    (ext : Oracle) (val : String) (hval : obj.alkamisaika = some val)
    (h0 : val ≠ "") (h1 : pyStrip val ≠ "")
    (h2 : timeParses (dotToColon (pyStrip val)) = false) :
    normalize_time val = dotToColon (pyStrip val) ∧
    dotToColon (pyStrip val) ≠ "" ∧
    isHHMMForm (dotToColon (pyStrip val)) = false ∧
    (∀ d, dayOf obj = some d →
      (processRecord cfg st obj ext).outcome ≠ Outcome.skipped "missing_day_or_time") ∧
    (∀ p, (processRecord cfg st obj ext).assembled = some p →
      p.startTime = dotToColon (pyStrip val)) := by
  have hnt := normalize_time_unparsed val h0 h2
  have hne := dotToColon_ne_empty (pyStrip val) h1
  have hst : startTimeOf obj = normalize_time val := by
    unfold startTimeOf
    rw [hval]
    rfl
  have htime : startTimeOf obj ≠ "" := by
    rw [hst, hnt]
    exact hne
  refine ⟨hnt, hne, isHHMM_false_of_unparsed _ h2, ?_, ?_⟩
  · intro d hday
    exact processRecord_not_day_skip cfg st obj ext d hday htime
  · intro p hp
    obtain ⟨⟨d, lat, lon, _, hpe⟩, _, _, _, _⟩ :=
      processRecord_assembled cfg st obj ext p hp
    subst hpe
    show startTimeOf obj = dotToColon (pyStrip val)
    rw [hst, hnt]

/-- Counterexample to claim C10 as stated: the start-time string `" "` is
non-empty and unparseable, yet `normalize_time` returns the empty string
(the strip empties it before the dot substitution), so the record IS
skipped with `missing_day_or_time` even with a mapped weekday. -/
theorem c10_counterexample :
    " " ≠ "" ∧ timeParses (dotToColon (pyStrip " ")) = false ∧
    normalize_time " " = "" ∧
    (processRecord cfgFin rs0 objSpaceTime orOk).outcome =
      Outcome.skipped "missing_day_or_time" := by
  decide

/-- Witness for the amended C10: the start time `"19:xx"` comes through
unparsed, non-empty and not in HH:MM shape, and the record's payload
carries it verbatim. -/
theorem c10_unparseable_start_time_witness :
    normalize_time "19:xx" = "19:xx" ∧
    isHHMMForm "19:xx" = false ∧
    (processRecord cfgFin rs0 objLetterTime orOk).outcome ≠
      Outcome.skipped "missing_day_or_time" ∧
    (processRecord cfgFin rs0 objLetterTime orOk).assembled.map Payload.startTime =
      some "19:xx" := by
  have h := c10_unparseable_start_time cfgFin rs0 objLetterTime orOk "19:xx"
    rfl (by decide) (by decide) (by decide)
  have ha : (processRecord cfgFin rs0 objLetterTime orOk).assembled =
      some (mkPayload cfgFin objLetterTime 1 601699 249384) := by decide
  refine ⟨?_, h.2.2.1, h.2.2.2.1 1 (by decide), ?_⟩
  · have hv : dotToColon (pyStrip "19:xx") = "19:xx" := by decide
    rw [h.1, hv]
  · rw [ha]
    have hs := h.2.2.2.2 (mkPayload cfgFin objLetterTime 1 601699 249384) ha
    simp [hs]
    decide
